import Mathlib

/-!
# Verification of the automator-ia workflow platform core

Shallow embedding of the registry / scheduler / execution-engine triad of the
automator-ia repository, together with the layered tool-profile resolver.

Sources embedded:
* `app/private/workflows/registry.py` (`WorkflowRegistry`)
* `app/common/services/scheduler.py` (`WorkflowScheduler`)
* `app/common/engine.py` (`WorkflowEngine`)
* `app/common/database/crud.py` / `models.py` (persistent store, modelled as
  in-memory lists of rows; every write is additionally recorded as a
  `StoreWrite` event so that write-freedom properties can be stated)
* `app/common/services/tool.py` (`ToolsService` profile resolution)

Python dictionaries are modelled as insertion-ordered association lists with
unique keys (`PyDict`); `datetime` values are abstracted to `Nat` (or to
`Option Unit` where only being-set matters); random `generate_id`/`uuid` ids
are modelled by a collision-free counter (`WfId.gen`) drawn from the store,
while pre-existing rows carry arbitrary `WfId.ext` string ids.
-/

namespace Automator

/-- Python-style string-keyed dictionary: an insertion-ordered association
list.  Dictionaries built by `dinsert` have unique keys. -/
abbrev PyDict (α : Type) := List (String × α)

/-- `m.get(k)`: the value at `k`, `none` when absent (first binding wins;
dictionaries built by `dinsert` have at most one binding per key). -/
def dget {α : Type} (m : PyDict α) (k : String) : Option α :=
  (m.find? (fun e => e.1 == k)).map (·.2)

/-- Python dict assignment `m[k] = v`: replace in place when the key exists,
otherwise append (preserving insertion order). -/
def dinsert {α : Type} (m : PyDict α) (k : String) (v : α) : PyDict α :=
  match m with
  | [] => [(k, v)]
  | e :: rest => if e.1 == k then (k, v) :: rest else e :: dinsert rest k v

/-- Python `m.update(cfg)`: fold `cfg`'s entries into `m` in order. -/
def dupdate {α : Type} (m cfg : PyDict α) : PyDict α :=
  cfg.foldl (fun acc e => dinsert acc e.1 e.2) m

/-- Build a Python dict from an ordered list of entries (dict comprehension:
later duplicate keys overwrite in place). -/
def dictOf {α : Type} (l : List (String × α)) : PyDict α := dupdate [] l

/-! ## Profile Resolver (`ToolsService`, `app/common/services/tool.py`)

`_load_env_profiles` merges three tiers of key=value sources into named
profiles.  Env files and the process environment are modelled in parsed form:
ordered `(key, value)` entry lists (`dotenv_values` / `os.environ` item
order).  The per-tool `.env.<profile>` files are given as a list of
`(profile_name, entries)` pairs, in directory-listing order. -/

/-- Parsed content of an env file or of the process environment. -/
abbrev EnvMap := List (String × String)

/-! Executable models of the Python string primitives used by the resolver
(`str.upper`, `str.lower`, `str.startswith`, `str.endswith` and slicing),
working on the underlying character list so that they evaluate inside the
kernel. -/

/-- `s.upper()`. -/
def strUpper (s : String) : String := ⟨s.data.map Char.toUpper⟩

/-- `s.lower()`. -/
def strLower (s : String) : String := ⟨s.data.map Char.toLower⟩

/-- `s.startswith(pre)`. -/
def strStartsWith (s pre : String) : Bool := pre.data.isPrefixOf s.data

/-- `s.endswith(suf)`. -/
def strEndsWith (s suf : String) : Bool := suf.data.isSuffixOf s.data

/-- The Python slice `s[a:-b]` (empty when the bounds cross). -/
def strSlice (s : String) (a b : Nat) : String :=
  ⟨(s.data.drop a).take (s.data.length - a - b)⟩

/-- The declared-parameter part of a tool's `config.json` schema
(`get_tool_config_schema`): `required_params` plus the keys of
`optional_params`. -/
structure ToolSchema where
  required_params : List String
  optional_params : List String
deriving DecidableEq, Repr

/-- A resolved profile entry `{name, config, source}` (database-tier entries
additionally carry an `id`). -/
structure ProfileEntry where
  name : String
  config : PyDict String
  source : String
  id : Option String := none
deriving DecidableEq, Repr

/-- `source_prio = {"env_file": 1, "env_central": 2, "env_runtime": 3}`. -/
def sourceRank : String → Nat
  | "env_file" => 1
  | "env_central" => 2
  | "env_runtime" => 3
  | _ => 0

/-- The inner `merge(profile, cfg, src)` closure of `_load_env_profiles`:
skip empty configs, per-key update of the profile's accumulated config, and
raise the recorded source label when the new tier has higher priority. -/
def mergeProfile (st : PyDict (PyDict String) × PyDict String)
    (profile : String) (cfg : PyDict String) (src : String) :
    PyDict (PyDict String) × PyDict String :=
  if cfg.isEmpty then st
  else
    let pm := dinsert st.1 profile (dupdate ((dget st.1 profile).getD []) cfg)
    let ps :=
      match dget st.2 profile with
      | none => dinsert st.2 profile src
      | some prev =>
          if sourceRank prev < sourceRank src then dinsert st.2 profile src
          else st.2
    (pm, ps)

/-- `ToolsService._profiles_from_envmap`: extract `{profile: config}` from an
`os.environ`-like mapping.  Keys of the shape `<TOOL>_<PROFILE>_<PARAM>` are
attributed to `(PROFILE, param)`; matching is restricted to the tool's
declared parameter names.  (`params_upper` is a Python set; its iteration
order is modelled by list order, with `break` = first match.) -/
def profiles_from_envmap (tool_name : String) (mapping : EnvMap)
    (params_upper : List String) : PyDict (PyDict String) :=
  let tool_prefix := strUpper tool_name ++ "_"
  if params_upper.isEmpty then []
  else
    mapping.foldl (fun result kv =>
      if strStartsWith kv.1 tool_prefix then
        match params_upper.find? (fun param => strEndsWith kv.1 ("_" ++ param)) with
        | some param =>
            let profile := strSlice kv.1 tool_prefix.length ("_" ++ param).length
            if profile == "" then result
            else dinsert result profile
                   (dinsert ((dget result profile).getD []) (strLower param) kv.2)
        | none => result
      else result) []

/-- `ToolsService._load_env_profiles`: three-tier layered profile resolution.
`env_files` are the per-tool `.env.<profile>` files (tier `env_file`),
`central` is the optional `config/.env` file (tier `env_central`), `runtime`
is the process environment (tier `env_runtime`).  Later tiers override
earlier ones per key; the source label records the highest contributing
tier. -/
def load_env_profiles (tool_name : String) (schema : ToolSchema)
    (env_files : List (String × EnvMap)) (central : Option EnvMap)
    (runtime : EnvMap) : List ProfileEntry :=
  let params_upper :=
    ((schema.required_params ++ schema.optional_params).map strUpper).dedup
  -- 1) per-tool .env.<profile> files: keys lower-cased, empty values dropped
  let st : PyDict (PyDict String) × PyDict String := ([], [])
  let st := env_files.foldl (fun st pf =>
      let config := dictOf ((pf.2.filter (fun kv => kv.2 != "")).map
        (fun kv => (strLower kv.1, kv.2)))
      mergeProfile st pf.1 config "env_file") st
  -- 2) centralized config/.env file, when present
  let st :=
    match central with
    | some cvars =>
        (profiles_from_envmap tool_name cvars params_upper).foldl
          (fun st pc => mergeProfile st pc.1 pc.2 "env_central") st
    | none => st
  -- 3) runtime process environment
  let st :=
    (profiles_from_envmap tool_name runtime params_upper).foldl
      (fun st pc => mergeProfile st pc.1 pc.2 "env_runtime") st
  st.1.map (fun nc =>
    { name := nc.1, config := nc.2, source := (dget st.2 nc.1).getD "env_runtime" })

/-- `ToolsService.save_env_profile`: write profile `profile_name` as the file
`.env.<profile_name>` in the tool directory, one `KEY=value` line per config
entry with the key upper-cased (`open(..., "w")` overwrites an existing
file). -/
def save_env_profile (env_files : List (String × EnvMap))
    (profile_name : String) (config : PyDict String) : List (String × EnvMap) :=
  dinsert env_files profile_name (config.map (fun kv => (strUpper kv.1, kv.2)))

/-! ### Dictionary lemmas -/

theorem dinsert_eq_append {α : Type} (m : PyDict α) (k : String) (v : α)
    (h : ∀ e ∈ m, e.1 ≠ k) : dinsert m k v = m ++ [(k, v)] := by
  induction m with
  | nil => rfl
  | cons e rest ih =>
      have he : e.1 ≠ k := h e (List.mem_cons_self _ _)
      simp only [dinsert, beq_iff_eq, if_neg he, List.cons_append, List.cons.injEq,
        true_and]
      exact ih (fun e' h' => h e' (List.mem_cons_of_mem _ h'))

theorem dupdate_eq_append {α : Type} (l m : PyDict α)
    (hdisj : ∀ e ∈ l, ∀ e' ∈ m, e.1 ≠ e'.1)
    (hnd : (l.map Prod.fst).Nodup) : dupdate m l = m ++ l := by
  induction l generalizing m with
  | nil => simp [dupdate]
  | cons e rest ih =>
      have step : dinsert m e.1 e.2 = m ++ [e] := by
        have := dinsert_eq_append m e.1 e.2
          (fun e' h' => (hdisj e (List.mem_cons_self _ _) e' h').symm)
        simpa using this
      simp only [dupdate, List.foldl_cons] at *
      rw [step]
      have hnd' : (rest.map Prod.fst).Nodup := (List.nodup_cons.mp hnd).2
      have hdisj' : ∀ e' ∈ rest, ∀ e'' ∈ m ++ [e], e'.1 ≠ e''.1 := by
        intro e' h' e'' h''
        rcases List.mem_append.mp h'' with h'' | h''
        · exact hdisj e' (List.mem_cons_of_mem _ h') e'' h''
        · have : e'' = e := by simpa using h''
          subst this
          intro hcontra
          exact (List.nodup_cons.mp hnd).1
            (hcontra ▸ List.mem_map_of_mem Prod.fst h')
      have := ih (m ++ [e]) hdisj' hnd'
      simpa [dupdate, List.append_assoc] using this

theorem dictOf_eq_self {α : Type} (l : PyDict α)
    (hnd : (l.map Prod.fst).Nodup) : dictOf l = l := by
  have := dupdate_eq_append l [] (by simp) hnd
  simpa [dictOf] using this

theorem profiles_from_envmap_nil (t : String) (ps : List String) :
    profiles_from_envmap t [] ps = [] := by
  unfold profiles_from_envmap
  split <;> rfl

theorem mergeProfile_empty_state (p : String) (cfg : PyDict String) (src : String)
    (h : cfg.isEmpty = false) :
    mergeProfile ([], []) p cfg src = ([(p, dictOf cfg)], [(p, src)]) := by
  unfold mergeProfile
  rw [h]
  rfl

/-! ### C8 and C9 -/

/-- **C8.** For a tool whose manifest declares exactly the parameters
`{api_key, base_url}`, a runtime environment variable
`MYTOOL_DEFAULT_API_KEY=x` combined with a per-tool file `.env.DEFAULT`
containing `base_url=y` resolves to a single profile "DEFAULT" whose config
is `{api_key: x, base_url: y}` and whose source label is `env_runtime`, the
highest-priority contributing tier: per-key merging lets the later tier add
`api_key` on top of the file-provided `base_url`. -/
theorem c8_layered_profile_merge :
    load_env_profiles "mytool" ⟨["api_key", "base_url"], []⟩
        [("DEFAULT", [("base_url", "y")])] none
        [("MYTOOL_DEFAULT_API_KEY", "x")] =
      [{ name := "DEFAULT", config := [("base_url", "y"), ("api_key", "x")],
         source := "env_runtime" }] ∧
    dget [("base_url", "y"), ("api_key", "x")] "api_key" = some "x" ∧
    dget [("base_url", "y"), ("api_key", "x")] "base_url" = some "y" := by
  decide

/-- **C9, counterexample.** The round-trip claim is quantified over *every*
profile config mapping, but fails for the empty mapping: `save_env_profile`
writes an empty `.env.P` file, and `_load_env_profiles` drops profiles whose
parsed config is empty (`if config:`), so resolution returns no profile named
"P" at all. -/
theorem c9_counterexample :
    load_env_profiles "mytool" ⟨["api_key"], []⟩
        (save_env_profile [] "P" []) none [] = [] := by
  decide

/-- **C9, amended.** For every tool, profile name and *nonempty* config
mapping whose values are all nonempty and whose keys are distinct after
case-folding, creating the profile via the file-backed write path
(`save_env_profile`) and then resolving profiles for that tool returns a
single profile with the same name whose config equals the written config
modulo case-folding of keys (keys come back as `toUpper ∘ toLower` of the
originals: upper-cased on write, lower-cased on read), tagged with source
`env_file`. -/
theorem c9_roundtrip_amended (tool_name p : String) (schema : ToolSchema)
    (config : PyDict String)
    (hne : config ≠ [])
    (hvals : ∀ kv ∈ config, kv.2 ≠ "")
    (hkeys : (config.map (fun kv => strLower (strUpper kv.1))).Nodup) :
    load_env_profiles tool_name schema (save_env_profile [] p config) none [] =
      [{ name := p,
         config := config.map (fun kv => (strLower (strUpper kv.1), kv.2)),
         source := "env_file" }] := by
  have hfilter :
      (config.map (fun kv => (strUpper kv.1, kv.2))).filter (fun kv => kv.2 != "") =
        config.map (fun kv => (strUpper kv.1, kv.2)) := by
    rw [List.filter_eq_self]
    intro e he
    rcases List.mem_map.mp he with ⟨kv, hkv, rfl⟩
    simpa using hvals kv hkv
  have hmapped :
      ((config.map (fun kv => (strUpper kv.1, kv.2))).map
          (fun kv => (strLower kv.1, kv.2))) =
        config.map (fun kv => (strLower (strUpper kv.1), kv.2)) := by
    rw [List.map_map]; rfl
  have hdict :
      dictOf (config.map (fun kv => (strLower (strUpper kv.1), kv.2))) =
        config.map (fun kv => (strLower (strUpper kv.1), kv.2)) := by
    apply dictOf_eq_self
    rw [List.map_map]
    exact hkeys
  have hnonempty :
      (config.map (fun kv => (strLower (strUpper kv.1), kv.2))).isEmpty = false := by
    cases config with
    | nil => exact absurd rfl hne
    | cons e t => rfl
  show (load_env_profiles tool_name schema
      [(p, config.map (fun kv => (strUpper kv.1, kv.2)))] none []) = _
  unfold load_env_profiles
  simp only [List.foldl_cons, List.foldl_nil, hfilter, hmapped,
    profiles_from_envmap_nil]
  rw [hdict, mergeProfile_empty_state p _ "env_file" hnonempty, hdict]
  simp [dget, dinsert]

/-- Witness for `c9_roundtrip_amended` at a concrete input. -/
theorem c9_roundtrip_amended_witness :
    ([("Api_Key", "s3cr3t")] : PyDict String) ≠ [] ∧
    (∀ kv ∈ ([("Api_Key", "s3cr3t")] : PyDict String), kv.2 ≠ "") ∧
    (([("Api_Key", "s3cr3t")] : PyDict String).map
        (fun kv => strLower (strUpper kv.1))).Nodup ∧
    load_env_profiles "mytool" ⟨["api_key"], []⟩
        (save_env_profile [] "P" [("Api_Key", "s3cr3t")]) none [] =
      [{ name := "P",
         config := ([("Api_Key", "s3cr3t")] : PyDict String).map
           (fun kv => (strLower (strUpper kv.1), kv.2)),
         source := "env_file" }] :=
  ⟨by decide, by decide, by decide,
   c9_roundtrip_amended "mytool" "P" ⟨["api_key"], []⟩ [("Api_Key", "s3cr3t")]
     (by decide) (by decide) (by decide)⟩

/-! ## Persistent Store (`app/common/database/models.py` / `crud.py`)

Rows live in in-memory lists (SQLite table order = insertion order).  The
random `generate_id` / `uuid4` identifiers are modelled by an id space with
two constructors: `ext s` for ids of rows that pre-exist a modelled run, and
`gen n` for ids generated during the run, drawn from a per-store counter that
stands in for the (assumed collision-free) random generator. -/

inductive WfId where
  | ext (s : String)
  | gen (n : Nat)
deriving DecidableEq, Repr

/-- Whether an id was produced by the modelled id generator. -/
def WfId.isGen : WfId → Bool
  | .gen _ => true
  | .ext _ => false

/-- A manifest (`config.json`) as read by the registry: each field models
`config.get(key)`, with `none` for an absent (or `null`-valued) key.
Defaults (`triggers → []`, `version → "1.0.0"`, `active → True`, …) are
applied at the use sites, as in the source. -/
structure WorkflowConfig where
  name : Option String := none
  description : Option String := none
  category : Option String := none
  schedule : Option String := none
  triggers : Option (List String) := none
  tools_required : Option (List String) := none
  tool_profiles : Option (List (String × String)) := none
  author : Option String := none
  version : Option String := none
  active : Option Bool := none
deriving DecidableEq, Repr

/-- `WorkflowModel` row. -/
structure WorkflowModel where
  id : WfId
  name : String
  display_name : Option String := none
  description : Option String := none
  category : Option String := none
  schedule : Option String := none
  triggers : List String := []
  tools_required : List String := []
  tool_profiles : List (String × String) := []
  author : Option String := none
  version : String := "1.0.0"
  active : Bool := true
  file_path : Option String := none
deriving DecidableEq, Repr

/-- `ToolModel` row (fields not read by the embedded code are omitted). -/
structure ToolModel where
  id : WfId
  name : String
  active : Bool := true
deriving DecidableEq, Repr

/-- `WorkflowExecutionModel` row.  `start_time`/`duration` are never read by
the embedded code and are omitted; `end_time` only matters as set/unset, so
it is `Option Unit`. -/
structure WorkflowExecutionModel where
  id : WfId
  workflow_id : WfId
  trigger_type : String
  end_time : Option Unit := none
  status : String := "running"
  input_data : Option (PyDict String) := none
  result : Option (PyDict String) := none
  error : Option String := none
deriving DecidableEq, Repr

/-- `LogModel` row (timestamp/context omitted: never read). -/
structure LogModel where
  id : WfId
  entity_type : String
  entity_id : Option WfId := none
  level : String
  message : String
  execution_id : Option WfId := none
deriving DecidableEq, Repr

/-- `ScheduledJobModel` row; timestamps abstracted to `Nat`. -/
structure ScheduledJobModel where
  id : WfId
  workflow_id : WfId
  cron_expression : String
  active : Bool := true
  next_run : Option Nat := none
  last_run : Option Nat := none
deriving DecidableEq, Repr

/-- The Persistent Store, plus the fresh-id counter. -/
structure Store where
  workflows : List WorkflowModel := []
  tools : List ToolModel := []
  workflow_executions : List WorkflowExecutionModel := []
  logs : List LogModel := []
  scheduled_jobs : List ScheduledJobModel := []
  next_id : Nat := 0
deriving DecidableEq, Repr

/-! Updates passed to the `update_*` CRUD functions are Python dicts of
column/value pairs; they are reified as lists of field setters so that
which-columns-were-written facts can be stated. -/

inductive WorkflowField where
  | display_name (v : Option String)
  | description (v : Option String)
  | category (v : Option String)
  | schedule (v : Option String)
  | triggers (v : List String)
  | tools_required (v : List String)
  | tool_profiles (v : List (String × String))
  | author (v : Option String)
  | version (v : String)
  | active (v : Bool)
deriving DecidableEq, Repr

def applyWorkflowField (w : WorkflowModel) : WorkflowField → WorkflowModel
  | .display_name v => { w with display_name := v }
  | .description v => { w with description := v }
  | .category v => { w with category := v }
  | .schedule v => { w with schedule := v }
  | .triggers v => { w with triggers := v }
  | .tools_required v => { w with tools_required := v }
  | .tool_profiles v => { w with tool_profiles := v }
  | .author v => { w with author := v }
  | .version v => { w with version := v }
  | .active v => { w with active := v }

def applyWorkflowFields (w : WorkflowModel) (fs : List WorkflowField) :
    WorkflowModel :=
  fs.foldl applyWorkflowField w

inductive ExecField where
  | end_time
  | status (v : String)
  | result (v : PyDict String)
  | error (v : Option String)
deriving DecidableEq, Repr

def applyExecField (e : WorkflowExecutionModel) : ExecField → WorkflowExecutionModel
  | .end_time => { e with end_time := some () }
  | .status v => { e with status := v }
  | .result v => { e with result := some v }
  | .error v => { e with error := v }

def applyExecFields (e : WorkflowExecutionModel) (fs : List ExecField) :
    WorkflowExecutionModel :=
  fs.foldl applyExecField e

inductive JobField where
  | cron_expression (v : String)
  | active (v : Bool)
  | next_run (v : Option Nat)
  | last_run (v : Nat)
deriving DecidableEq, Repr

def applyJobField (j : ScheduledJobModel) : JobField → ScheduledJobModel
  | .cron_expression v => { j with cron_expression := v }
  | .active v => { j with active := v }
  | .next_run v => { j with next_run := v }
  | .last_run v => { j with last_run := some v }

def applyJobFields (j : ScheduledJobModel) (fs : List JobField) :
    ScheduledJobModel :=
  fs.foldl applyJobField j

/-- A write issued against the Persistent Store (one SQL statement). -/
inductive StoreWrite where
  | createWorkflow (w : WorkflowModel)
  | updateWorkflow (id : WfId) (fields : List WorkflowField)
  | createExecution (e : WorkflowExecutionModel)
  | updateExecution (id : WfId) (fields : List ExecField)
  | createLog (l : LogModel)
  | createJob (j : ScheduledJobModel)
  | updateJob (id : WfId) (fields : List JobField)
deriving DecidableEq, Repr

/-! CRUD operations (`app/common/database/crud.py`), as pure functions
returning the new store and the writes issued. -/

/-- `list_workflows(active_only)`. -/
def list_workflows (s : Store) (active_only : Bool) : List WorkflowModel :=
  if active_only then s.workflows.filter (·.active) else s.workflows

/-- `get_workflow(workflow_id)`: `WHERE id = ? AND active = 1`. -/
def get_workflow (s : Store) (workflow_id : WfId) : Option WorkflowModel :=
  (s.workflows.filter (·.active)).find? (fun w => decide (w.id = workflow_id))

/-- `create_workflow`: the row's fresh id is drawn from the store counter. -/
def create_workflow (s : Store) (mk : WfId → WorkflowModel) :
    Store × List StoreWrite :=
  let w := mk (.gen s.next_id)
  ({ s with workflows := s.workflows ++ [w], next_id := s.next_id + 1 },
   [.createWorkflow w])

/-- `update_workflow`: `UPDATE workflows SET ... WHERE id = ?`. -/
def update_workflow (s : Store) (id : WfId) (fs : List WorkflowField) :
    Store × List StoreWrite :=
  let rows := s.workflows.map
    (fun w => if w.id = id then applyWorkflowFields w fs else w)
  ({ s with workflows := rows }, [.updateWorkflow id fs])

/-- `get_tool_by_name(name, active_only=True)`. -/
def get_tool_by_name (s : Store) (name : String) : Option ToolModel :=
  (s.tools.filter (·.active)).find? (fun t => t.name == name)

/-- `create_workflow_execution`, returning the generated execution id. -/
def create_workflow_execution (s : Store)
    (mk : WfId → WorkflowExecutionModel) : Store × WfId × List StoreWrite :=
  let e := mk (.gen s.next_id)
  ({ s with workflow_executions := s.workflow_executions ++ [e],
            next_id := s.next_id + 1 },
   .gen s.next_id, [.createExecution e])

/-- `update_workflow_execution`. -/
def update_workflow_execution (s : Store) (id : WfId) (fs : List ExecField) :
    Store × List StoreWrite :=
  let rows := s.workflow_executions.map
    (fun e => if e.id = id then applyExecFields e fs else e)
  ({ s with workflow_executions := rows }, [.updateExecution id fs])

/-- `create_log`. -/
def create_log (s : Store) (mk : WfId → LogModel) : Store × List StoreWrite :=
  let l := mk (.gen s.next_id)
  ({ s with logs := s.logs ++ [l], next_id := s.next_id + 1 }, [.createLog l])

-- `get_scheduled_jobs(active_only=False)` is `s.scheduled_jobs` itself.

/-- `create_scheduled_job` (id drawn from the counter, modelling `uuid4`). -/
def create_scheduled_job (s : Store) (mk : WfId → ScheduledJobModel) :
    Store × List StoreWrite :=
  let j := mk (.gen s.next_id)
  ({ s with scheduled_jobs := s.scheduled_jobs ++ [j],
            next_id := s.next_id + 1 },
   [.createJob j])

/-- `update_scheduled_job`. -/
def update_scheduled_job (s : Store) (id : WfId) (fs : List JobField) :
    Store × List StoreWrite :=
  let rows := s.scheduled_jobs.map
    (fun j => if j.id = id then applyJobFields j fs else j)
  ({ s with scheduled_jobs := rows }, [.updateJob id fs])

/-! ## Catalog Reconciler (`WorkflowRegistry`, registry.py)

A workflow definition on disk is a folder with a `config.json` manifest and a
`main.py` entry point.  Definitions that fail to load are skipped by the
source (logged) and are not modelled; an entry point is an arbitrary function
from the optional input dict to either a result dict (normal return) or an
exception text (`raise`).  Tool-instance construction (`get_tool_instances`)
only feeds the entry point and is absorbed into the modelled entry-point
function. -/

/-- A workflow entry point: `execute(data, tools)`, with tool instances
absorbed; `.error` models an uncaught exception. -/
def Module : Type := Option (PyDict String) → Except String (PyDict String)

/-- A successfully discovered filesystem definition. -/
structure FsWorkflow where
  name : String
  config : WorkflowConfig
  path : String
  module : Module

/-- The in-memory index `self._workflows`, reduced to what
`execute_workflow` reads from it. -/
def registryOf (fs : List FsWorkflow) : List (String × Module) :=
  fs.map (fun f => (f.name, f.module))

/-- `self._workflows.get(name)` (directory names are distinct, so first
match is the match). -/
def regLookup (reg : List (String × Module)) (name : String) : Option Module :=
  (reg.find? (fun e => e.1 == name)).map (·.2)

/-- The lookup `{w.name: w for w in list_workflows(active_only=False)}[name]`
used by `_sync_workflow_to_db`: a dict comprehension keeps the *last* row per
name. -/
def lastByName (l : List WorkflowModel) (n : String) : Option WorkflowModel :=
  l.reverse.find? (fun w => w.name == n)

/-- `next((w for w in list_workflows() if w.name == name), None)`: first row
per name, over all rows. -/
def firstByName (s : Store) (n : String) : Option WorkflowModel :=
  (list_workflows s false).find? (fun w => w.name == n)

/-- The update dict computed by `_sync_workflow_to_db` for an existing row:
one setter per mutable field whose stored value differs from the manifest
value, in source order.  `active` and `file_path` are never among them. -/
def syncUpdates (w : WorkflowModel) (config : WorkflowConfig) :
    List WorkflowField :=
  (if w.display_name ≠ config.name
    then [.display_name config.name] else []) ++
  (if w.description ≠ config.description
    then [.description config.description] else []) ++
  (if w.category ≠ config.category
    then [.category config.category] else []) ++
  (if w.schedule ≠ config.schedule
    then [.schedule config.schedule] else []) ++
  (if w.triggers ≠ config.triggers.getD []
    then [.triggers (config.triggers.getD [])] else []) ++
  (if w.tools_required ≠ config.tools_required.getD []
    then [.tools_required (config.tools_required.getD [])] else []) ++
  (if w.tool_profiles ≠ config.tool_profiles.getD []
    then [.tool_profiles (config.tool_profiles.getD [])] else []) ++
  (if w.author ≠ config.author
    then [.author config.author] else []) ++
  (if w.version ≠ config.version.getD "1.0.0"
    then [.version (config.version.getD "1.0.0")] else [])

/-- `WorkflowRegistry._sync_workflow_to_db(name, config, file_path)`:
create the row from the manifest when the name is new, otherwise update
exactly the changed mutable fields — never `active`, never `file_path`. -/
def sync_workflow_to_db (s : Store) (name : String) (config : WorkflowConfig)
    (file_path : String) : Store × List StoreWrite :=
  match lastByName (list_workflows s false) name with
  | none =>
      create_workflow s (fun i =>
        { id := i, name := name,
          display_name := config.name,
          description := config.description,
          category := config.category,
          schedule := config.schedule,
          triggers := config.triggers.getD [],
          tools_required := config.tools_required.getD [],
          tool_profiles := config.tool_profiles.getD [],
          author := config.author,
          version := config.version.getD "1.0.0",
          active := config.active.getD true,
          file_path := some file_path })
  | some w =>
      let updates := syncUpdates w config
      if updates.isEmpty then (s, []) else update_workflow s w.id updates

/-- One iteration of the discovery loop of `_load_workflows`. -/
def syncStep (acc : Store × List StoreWrite) (f : FsWorkflow) :
    Store × List StoreWrite :=
  let r := sync_workflow_to_db acc.1 f.name f.config f.path
  (r.1, acc.2 ++ r.2)

/-- One iteration of the orphan-deactivation loop of `_load_workflows`. -/
def orphanStep (names : List String) (acc : Store × List StoreWrite)
    (w : WorkflowModel) : Store × List StoreWrite :=
  if names.contains w.name then acc
  else
    let r := update_workflow acc.1 w.id [.active false]
    (r.1, acc.2 ++ r.2)

/-- `WorkflowRegistry._load_workflows` (one reconciliation pass): sync every
discovered definition to the store, then soft-deactivate every stored
workflow whose name was not discovered (orphans), iterating over a snapshot
of the store taken after the discovery loop. -/
def load_workflows (fs : List FsWorkflow) (s : Store) :
    Store × List StoreWrite :=
  let mid := fs.foldl syncStep (s, [])
  (list_workflows mid.1 false).foldl (orphanStep (fs.map (·.name))) mid

/-! ## Execution Engine (`WorkflowRegistry.execute_workflow`, engine.py) -/

/-- The structured error result `{"status": "error", "message": msg}`. -/
def errorResult (msg : String) : PyDict String :=
  [("status", "error"), ("message", msg)]

/-- `data or {}`. -/
def pyOr (d : Option (PyDict String)) : PyDict String := d.getD []

/-- `WorkflowRegistry.execute_workflow(name, data)`: precondition check,
execution-row creation, entry-point invocation, finalization and logging on
normal return; on an entry-point exception the `except` clause returns a
structured error result (performing no further store writes).  The function
is total: every outcome is a returned result value. -/
def execute_workflow (reg : List (String × Module)) (s : Store) (name : String)
    (data : Option (PyDict String)) :
    Store × List StoreWrite × PyDict String :=
  match regLookup reg name, firstByName s name with
  | some m, some db =>
      if db.active then
        let c := create_workflow_execution s (fun i =>
          { id := i, workflow_id := db.id, trigger_type := "manual",
            input_data := some (pyOr data) })
        let s1 := c.1
        let execution_id := c.2.1
        match m data with
        | .ok result =>
            let u := update_workflow_execution s1 execution_id
              [.end_time, .status ((dget result "status").getD "success"),
               .result result, .error (dget result "error")]
            let lg := create_log u.1 (fun i =>
              { id := i, entity_type := "workflow", entity_id := some db.id,
                level := if dget result "status" = some "success"
                         then "info" else "error",
                message := "Workflow " ++ name ++ " executed: " ++
                  ((dget result "message").getD ""),
                execution_id := some execution_id })
            (lg.1, c.2.2 ++ u.2 ++ lg.2, result)
        | .error e =>
            (s1, c.2.2, errorResult ("Workflow execution failed: " ++ e))
      else (s, [], errorResult ("Workflow '" ++ name ++ "' not found or inactive"))
  | _, _ => (s, [], errorResult ("Workflow '" ++ name ++ "' not found or inactive"))

/-- `WorkflowEngine.execute_workflow(workflow_name, data, trigger_type)`
(engine.py line 17): delegates to the registry, *discarding*
`trigger_type`. -/
def engine_execute_workflow (reg : List (String × Module)) (s : Store)
    (workflow_name : String) (data : Option (PyDict String))
    (trigger_type : String) : Store × List StoreWrite × PyDict String :=
  execute_workflow reg s workflow_name data

/-! ## Scheduler (`WorkflowScheduler`, scheduler.py)

APScheduler state is modelled as the list of armed workflow names (job ids
are `"workflow_{name}"`, in bijection with names).  Cron parsing and
next-fire computation are parameters (`cronOk`, `cronNext`): the claims under
verification do not depend on concrete cron arithmetic. -/

structure SchedState where
  store : Store
  ap_jobs : List String := []
  is_running : Bool := true
deriving DecidableEq, Repr

/-- `WorkflowScheduler._are_tools_active`. -/
def are_tools_active (s : Store) (tools_required : List String) : Bool :=
  tools_required.all (fun t => (get_tool_by_name s t).isSome)

/-- `WorkflowScheduler._update_job_last_run`. -/
def update_job_last_run (s : Store) (workflow_id : WfId) (now : Nat) :
    Store × List StoreWrite :=
  match s.scheduled_jobs.find? (fun j => decide (j.workflow_id = workflow_id)) with
  | some j => update_scheduled_job s j.id [.last_run now]
  | none => (s, [])

/-- `WorkflowScheduler._update_job_next_run`: reads the live APScheduler
job's own `next_run_time` (`ap_next`, absent when the job is not armed). -/
def update_job_next_run (s : Store) (workflow_id : WfId)
    (workflow_name : String) (ap_jobs : List String) (ap_next : Option Nat) :
    Store × List StoreWrite :=
  if ap_jobs.contains workflow_name then
    match s.scheduled_jobs.find? (fun j => decide (j.workflow_id = workflow_id)) with
    | some j => update_scheduled_job s j.id [.next_run ap_next]
    | none => (s, [])
  else (s, [])

/-- `WorkflowScheduler._unschedule_workflow`: drop the timer, mark the
corresponding ScheduledJob row inactive. -/
def unschedule_workflow (st : SchedState) (workflow_name : String) :
    SchedState × List StoreWrite :=
  let ap := st.ap_jobs.filter (fun n => n != workflow_name)
  match firstByName st.store workflow_name with
  | none => ({ st with ap_jobs := ap }, [])
  | some db =>
      match st.store.scheduled_jobs.find?
          (fun j => decide (j.workflow_id = db.id)) with
      | some j =>
          let u := update_scheduled_job st.store j.id [.active false]
          ({ st with store := u.1, ap_jobs := ap }, u.2)
      | none => ({ st with ap_jobs := ap }, [])

/-- Console notices printed by the scheduler during a firing. -/
inductive Notice where
  | job_stopped (workflow_name : String)
  | tools_inactive_skip (workflow_name : String)
  | scheduled_run (workflow_name : String)
  | run_done (workflow_name : String) (status : Option String)
deriving DecidableEq, Repr

/-- `WorkflowScheduler._execute_scheduled_workflow(workflow_name,
workflow_id)` — one cron firing at (modelled) time `now`, with `ap_next` the
live timer's next fire time. -/
def execute_scheduled_workflow (reg : List (String × Module))
    (st : SchedState) (workflow_name : String) (workflow_id : WfId)
    (now : Nat) (ap_next : Option Nat) :
    SchedState × List StoreWrite × List Notice :=
  match get_workflow st.store workflow_id with
  | none =>
      let r := unschedule_workflow st workflow_name
      (r.1, r.2, [.job_stopped workflow_name])
  | some db =>
      if ¬ db.active then
        -- unreachable: `get_workflow` already filters `active = 1`;
        -- kept to mirror `if not db_workflow or not db_workflow.active`
        let r := unschedule_workflow st workflow_name
        (r.1, r.2, [.job_stopped workflow_name])
      else if ¬ are_tools_active st.store db.tools_required then
        (st, [], [.tools_inactive_skip workflow_name])
      else
        let u1 := update_job_last_run st.store workflow_id now
        let ex := engine_execute_workflow reg u1.1 workflow_name (some []) "schedule"
        let u2 := update_job_next_run ex.1 workflow_id workflow_name
          st.ap_jobs ap_next
        ({ st with store := u2.1 }, u1.2 ++ ex.2.1 ++ u2.2,
         [.scheduled_run workflow_name,
          .run_done workflow_name (dget ex.2.2 "status")])

/-- `WorkflowScheduler._sync_job_to_db(workflow_id, cron, next_run)`. -/
def sync_job_to_db (s : Store) (workflow_id : WfId) (cron : String)
    (next_run : Option Nat) : Store × List StoreWrite :=
  match s.scheduled_jobs.find? (fun j => decide (j.workflow_id = workflow_id)) with
  | some j =>
      update_scheduled_job s j.id
        [.cron_expression cron, .active true, .next_run next_run]
  | none =>
      create_scheduled_job s (fun i =>
        { id := i, workflow_id := workflow_id, cron_expression := cron,
          active := true, next_run := next_run, last_run := none })

/-- `WorkflowScheduler._schedule_workflow`: arm the timer (replacing any
prior entry for the name) and persist the job; a cron-parse failure
(`cronOk cron = false`) leaves everything untouched (`try/except`). -/
def schedule_workflow (st : SchedState) (workflow_name : String)
    (cron : String) (workflow_id : WfId) (cronOk : String → Bool)
    (cronNext : String → Option Nat) : SchedState × List StoreWrite :=
  if cronOk cron then
    let ap := if st.ap_jobs.contains workflow_name then st.ap_jobs
              else st.ap_jobs ++ [workflow_name]
    let r := sync_job_to_db st.store workflow_id cron (cronNext cron)
    ({ st with store := r.1, ap_jobs := ap }, r.2)
  else (st, [])

/-- One iteration of `_schedule_all_workflows`: arm `f` when it is active in
its manifest, has a schedule, lists "schedule" in its triggers, and is
active in the store. -/
def schedStep (cronOk : String → Bool) (cronNext : String → Option Nat)
    (acc : SchedState × List StoreWrite) (f : FsWorkflow) :
    SchedState × List StoreWrite :=
  match f.config.schedule with
  | some cron =>
      if f.config.active.getD true ∧ "schedule" ∈ f.config.triggers.getD [] then
        match firstByName acc.1.store f.name with
        | some db =>
            if db.active then
              let r := schedule_workflow acc.1 f.name cron db.id cronOk cronNext
              (r.1, acc.2 ++ r.2)
            else acc
        | none => acc
      else acc
  | none => acc

/-- `WorkflowScheduler._schedule_all_workflows`. -/
def schedule_all_workflows (fs : List FsWorkflow) (st : SchedState)
    (cronOk : String → Bool) (cronNext : String → Option Nat) :
    SchedState × List StoreWrite :=
  fs.foldl (schedStep cronOk cronNext) (st, [])

/-- `WorkflowScheduler.reload_schedules`: when running, clear all armed
timers and re-derive the armed set from current store + filesystem state. -/
def reload_schedules (fs : List FsWorkflow) (st : SchedState)
    (cronOk : String → Bool) (cronNext : String → Option Nat) :
    SchedState × List StoreWrite :=
  if st.is_running then
    schedule_all_workflows fs { st with ap_jobs := [] } cronOk cronNext
  else (st, [])

/-- `WorkflowRegistry.reload_workflows`: one reconciliation
(`_load_workflows`) followed by a scheduler reload. -/
def reload_workflows (fs : List FsWorkflow) (st : SchedState)
    (cronOk : String → Bool) (cronNext : String → Option Nat) :
    SchedState × List StoreWrite :=
  let r1 := load_workflows fs st.store
  let r2 := reload_schedules fs { st with store := r1.1 } cronOk cronNext
  (r2.1, r1.2 ++ r2.2)

/-! ## Store well-formedness

`generate_id`/`uuid4` ids are assumed collision-free; in the model this is
the invariant that workflow ids are pairwise distinct and that every
generator-produced id already in the store is below the counter. -/

def Store.Inv (s : Store) : Prop :=
  (s.workflows.map (·.id)).Nodup ∧
  (∀ w ∈ s.workflows, ∀ k, w.id = WfId.gen k → k < s.next_id) ∧
  (∀ e ∈ s.workflow_executions, ∀ k, e.id = WfId.gen k → k < s.next_id)

/-- A store none of whose ids came from the modelled generator satisfies the
invariant (used by witnesses: concrete stores use `WfId.ext` ids). -/
theorem Store.inv_of_no_gen (s : Store)
    (h1 : (s.workflows.map (·.id)).Nodup)
    (h2 : ∀ w ∈ s.workflows, w.id.isGen = false)
    (h3 : ∀ e ∈ s.workflow_executions, e.id.isGen = false) : s.Inv := by
  refine ⟨h1, ?_, ?_⟩
  · intro w hw k hk
    have := h2 w hw
    rw [hk] at this
    simp [WfId.isGen] at this
  · intro e he k hk
    have := h3 e he
    rw [hk] at this
    simp [WfId.isGen] at this

theorem Store.Inv.exec_id_ne_fresh {s : Store} (h : s.Inv) :
    ∀ e ∈ s.workflow_executions, e.id ≠ WfId.gen s.next_id := by
  intro e he heq
  have := h.2.2 e he s.next_id heq
  omega

theorem Store.Inv.workflow_id_ne_fresh {s : Store} (h : s.Inv) :
    ∀ w ∈ s.workflows, w.id ≠ WfId.gen s.next_id := by
  intro w hw heq
  have := h.2.1 w hw s.next_id heq
  omega

/-- Mapping a pointwise-trivial function over a list is the identity. -/
theorem map_id_of {α : Type} (l : List α) (f : α → α)
    (h : ∀ a ∈ l, f a = a) : l.map f = l := by
  induction l with
  | nil => rfl
  | cons a t ih =>
      simp only [List.map_cons, h a (List.mem_cons_self a t)]
      rw [ih (fun b hb => h b (List.mem_cons_of_mem a hb))]

/-! ## C6: missing or inactive workflow -/

/-- **C6.** For every call to `execute_workflow` with a name that is not in
the in-memory catalog, has no store row, or whose store row is inactive, the
call returns the structured error result "Workflow '<name>' not found or
inactive" (the embedding is total, so no exception can propagate), the store
is returned unchanged — in particular no WorkflowExecution row is created —
and zero writes are issued. -/
theorem c6_missing_or_inactive_error_result
    (reg : List (String × Module)) (s : Store) (name : String)
    (data : Option (PyDict String))
    (h : regLookup reg name = none ∨ firstByName s name = none ∨
         ∃ db, firstByName s name = some db ∧ db.active = false) :
    execute_workflow reg s name data =
      (s, [], errorResult ("Workflow '" ++ name ++ "' not found or inactive")) := by
  unfold execute_workflow
  rcases h with h | h | ⟨db, hdb, hact⟩
  · rw [h]
  · rw [h]
    cases regLookup reg name <;> rfl
  · rw [hdb]
    cases hm : regLookup reg name with
    | none => rfl
    | some m => simp [hact]

/-- Witness for `c6_missing_or_inactive_error_result`: unknown name on an
empty catalog and store. -/
theorem c6_missing_or_inactive_error_result_witness :
    (regLookup ([] : List (String × Module)) "ghost" = none ∨
     firstByName {} "ghost" = none ∨
     ∃ db, firstByName {} "ghost" = some db ∧ db.active = false) ∧
    execute_workflow ([] : List (String × Module)) {} "ghost" none =
      ({}, [], errorResult ("Workflow '" ++ "ghost" ++ "' not found or inactive")) :=
  ⟨Or.inl rfl,
   c6_missing_or_inactive_error_result [] {} "ghost" none (Or.inl rfl)⟩

/-! ## C10: entry point returns a mapping without a "status" key -/

/-- **C10.** For every call to `execute_workflow` on an existing active
workflow whose entry point returns normally with a mapping lacking a
"status" key, the execution row is finalized with status "success" (absence
of a reported status is treated as success) and the returned mapping is
passed back to the caller unchanged. -/
theorem c10_missing_status_finalizes_success
    (reg : List (String × Module)) (s : Store) (name : String)
    (data : Option (PyDict String)) (m : Module) (db : WorkflowModel)
    (r : PyDict String)
    (hInv : s.Inv)
    (hm : regLookup reg name = some m)
    (hdb : firstByName s name = some db)
    (hact : db.active = true)
    (hok : m data = Except.ok r)
    (hnost : dget r "status" = none) :
    (execute_workflow reg s name data).2.2 = r ∧
    (execute_workflow reg s name data).1.workflow_executions =
      s.workflow_executions ++
        [{ id := .gen s.next_id, workflow_id := db.id,
           trigger_type := "manual", end_time := some (),
           status := "success", input_data := some (pyOr data),
           result := some r, error := dget r "error" }] := by
  unfold execute_workflow
  rw [hm, hdb]
  simp only [hact, if_true]
  rw [hok]
  simp only [create_workflow_execution, update_workflow_execution, create_log]
  refine ⟨by trivial, ?_⟩
  simp only [List.map_append]
  rw [map_id_of _ _ (fun e he => if_neg (hInv.exec_id_ne_fresh e he))]
  simp [applyExecFields, applyExecField, hnost]

/-- Witness for `c10_missing_status_finalizes_success`. -/
theorem c10_missing_status_finalizes_success_witness :
    (Store.Inv { workflows := [{ id := .ext "WF_a", name := "wf" }] }) ∧
    (execute_workflow [("wf", fun _ => Except.ok [("message", "hi")])]
        { workflows := [{ id := .ext "WF_a", name := "wf" }] } "wf"
        (some [("k", "v")])).2.2 = [("message", "hi")] ∧
    (execute_workflow [("wf", fun _ => Except.ok [("message", "hi")])]
        { workflows := [{ id := .ext "WF_a", name := "wf" }] } "wf"
        (some [("k", "v")])).1.workflow_executions =
      [] ++
        [{ id := .gen 0, workflow_id := .ext "WF_a",
           trigger_type := "manual", end_time := some (),
           status := "success", input_data := some (pyOr (some [("k", "v")])),
           result := some [("message", "hi")],
           error := dget [("message", "hi")] "error" }] :=
  have hinv : Store.Inv { workflows := [{ id := .ext "WF_a", name := "wf" }] } :=
    Store.inv_of_no_gen _ (by decide) (by decide) (by decide)
  ⟨hinv,
   c10_missing_status_finalizes_success
     [("wf", fun _ => Except.ok [("message", "hi")])]
     { workflows := [{ id := .ext "WF_a", name := "wf" }] } "wf"
     (some [("k", "v")]) _ _ _
     hinv rfl rfl rfl rfl rfl⟩

/-! ## C1: entry point raises -/

/-- Fixture: a catalog whose single workflow's entry point raises. -/
def c1reg : List (String × Module) := [("wf", fun _ => Except.error "boom")]

/-- Fixture: store holding the matching active workflow row. -/
def c1store : Store := { workflows := [{ id := .ext "WF_a", name := "wf" }] }

/-- **C1, counterexample.** Executing a workflow whose entry point raises
does return a structured error result, but the claim's finalization part
fails: no LogEntry is written at all, and every WorkflowExecution row in the
resulting store (there is one: the row created at execution start) has
status ≠ "error", a null error field, and no end_time — the `except` clause
of `execute_workflow` returns without finalizing or logging. -/
theorem c1_counterexample :
    dget (execute_workflow c1reg c1store "wf" none).2.2 "status" = some "error" ∧
    (execute_workflow c1reg c1store "wf" none).1.logs = [] ∧
    (execute_workflow c1reg c1store "wf" none).1.workflow_executions ≠ [] ∧
    ∀ e ∈ (execute_workflow c1reg c1store "wf" none).1.workflow_executions,
      e.status ≠ "error" ∧ e.error = none ∧ e.end_time = none := by
  decide

/-- **C1, amended.** For every workflow whose entry point raises, the call
catches the exception and returns the structured error result
"Workflow execution failed: <text>" without raising, and exactly one
WorkflowExecution row exists for that run — but the row is left
*unfinalized*: its status stays "running", its error field stays null, its
end_time stays unset, and no LogEntry is created; the only write issued is
the initial row insert. -/
theorem c1_catch_without_finalize
    (reg : List (String × Module)) (s : Store) (name : String)
    (data : Option (PyDict String)) (m : Module) (db : WorkflowModel)
    (msg : String)
    (hInv : s.Inv)
    (hm : regLookup reg name = some m)
    (hdb : firstByName s name = some db)
    (hact : db.active = true)
    (hraise : m data = Except.error msg) :
    (execute_workflow reg s name data).2.2 =
      errorResult ("Workflow execution failed: " ++ msg) ∧
    (execute_workflow reg s name data).1.workflow_executions =
      s.workflow_executions ++
        [{ id := .gen s.next_id, workflow_id := db.id,
           trigger_type := "manual", end_time := none, status := "running",
           input_data := some (pyOr data), result := none, error := none }] ∧
    (execute_workflow reg s name data).1.logs = s.logs ∧
    (execute_workflow reg s name data).2.1 =
      [.createExecution
        { id := .gen s.next_id, workflow_id := db.id,
          trigger_type := "manual", end_time := none, status := "running",
          input_data := some (pyOr data), result := none, error := none }] ∧
    ((execute_workflow reg s name data).1.workflow_executions.countP
        (fun e => decide (e.id = WfId.gen s.next_id))) = 1 := by
  unfold execute_workflow
  rw [hm, hdb]
  simp only [hact, if_true]
  rw [hraise]
  simp only [create_workflow_execution]
  refine ⟨by trivial, by trivial, by trivial, by trivial, ?_⟩
  rw [List.countP_append]
  have h0 : (s.workflow_executions.countP
      (fun e => decide (e.id = WfId.gen s.next_id))) = 0 := by
    rw [List.countP_eq_zero]
    intro e he
    simpa using hInv.exec_id_ne_fresh e he
  rw [h0]
  simp

/-- Witness for `c1_catch_without_finalize` on the counterexample fixture. -/
theorem c1_catch_without_finalize_witness :
    c1store.Inv ∧
    (execute_workflow c1reg c1store "wf" none).2.2 =
      errorResult ("Workflow execution failed: " ++ "boom") ∧
    (execute_workflow c1reg c1store "wf" none).1.workflow_executions =
      c1store.workflow_executions ++
        [{ id := .gen c1store.next_id, workflow_id := .ext "WF_a",
           trigger_type := "manual", end_time := none, status := "running",
           input_data := some (pyOr none), result := none, error := none }] :=
  have hinv : c1store.Inv :=
    Store.inv_of_no_gen _ (by decide) (by decide) (by decide)
  ⟨hinv,
   (c1_catch_without_finalize c1reg c1store "wf" none _ _ "boom"
      hinv rfl rfl rfl rfl).1,
   (c1_catch_without_finalize c1reg c1store "wf" none _ _ "boom"
      hinv rfl rfl rfl rfl).2.1⟩

/-! ## C2: scheduled firings are recorded as "manual" -/

/-- Fixture: "daily_report" entry point, returning success. -/
def c2reg : List (String × Module) :=
  [("daily_report", fun _ => Except.ok [("status", "success")])]

/-- Fixture: active workflow "daily_report" requiring the active tool
"slack", with an armed ScheduledJob and timer, and no executions yet. -/
def c2st : SchedState :=
  { store := { workflows := [{ id := .ext "WF_1", name := "daily_report",
                               schedule := some "0 8 * * *",
                               triggers := ["schedule"],
                               tools_required := ["slack"] }],
               tools := [{ id := .ext "TL_1", name := "slack" }],
               scheduled_jobs := [{ id := .ext "SJ_1",
                                    workflow_id := .ext "WF_1",
                                    cron_expression := "0 8 * * *" }] },
    ap_jobs := ["daily_report"] }

/-- **C2.** A scheduled firing of an armed, active workflow whose required
tools are all active does invoke the Execution Engine with empty input and
`trigger_type="schedule"` (scheduler.py line 138) — but
`WorkflowEngine.execute_workflow` discards `trigger_type` and the registry
hardcodes `"manual"`, so the single WorkflowExecution row created by the
firing records trigger type "manual", not "schedule".  The firing otherwise
proceeds normally (run notices emitted, `last_run` updated). -/
theorem c2_schedule_records_manual_trigger :
    ((execute_scheduled_workflow c2reg c2st "daily_report" (.ext "WF_1")
        100 (some 200)).1.store.workflow_executions.map
      (fun e => e.trigger_type)) = ["manual"] ∧
    (execute_scheduled_workflow c2reg c2st "daily_report" (.ext "WF_1")
        100 (some 200)).2.2 =
      [.scheduled_run "daily_report",
       .run_done "daily_report" (some "success")] := by
  decide

/-! ## C5: firing skipped when a required tool is inactive -/

/-- **C5.** For every scheduled firing of a store-active workflow with at
least one required tool missing-or-inactive in the store, the firing is
skipped wholesale: the scheduler state (store *and* armed-timer set) is
returned unchanged — so `last_run` is not updated, no WorkflowExecution is
created and the cron job stays armed — zero writes are issued, and the
    skip notice is emitted. -/
theorem c5_tools_inactive_skips_firing
    (reg : List (String × Module)) (st : SchedState) (wname : String)
    (wfid : WfId) (now : Nat) (ap_next : Option Nat) (db : WorkflowModel)
    (t : String)
    (hdb : get_workflow st.store wfid = some db)
    (ht : t ∈ db.tools_required)
    (htool : get_tool_by_name st.store t = none) :
    execute_scheduled_workflow reg st wname wfid now ap_next =
      (st, [], [.tools_inactive_skip wname]) := by
  have hact : db.active = true := by
    have hmem := List.mem_of_find?_eq_some hdb
    exact (List.mem_filter.mp hmem).2
  have htools : are_tools_active st.store db.tools_required = false := by
    rcases hb : are_tools_active st.store db.tools_required with _ | _
    · rfl
    · exfalso
      have := List.all_eq_true.mp hb t ht
      rw [htool] at this
      simp at this
  unfold execute_scheduled_workflow
  rw [hdb]
  simp [hact, htools]

/-- Fixture for C5: the spec scenario — workflow "daily_report" active with
required tool "slack" deactivated, job armed. -/
def c5db : WorkflowModel :=
  { id := .ext "WF_1", name := "daily_report", schedule := some "0 8 * * *",
    triggers := ["schedule"], tools_required := ["slack"] }

def c5st : SchedState :=
  { store := { workflows := [c5db],
               tools := [{ id := .ext "TL_1", name := "slack",
                           active := false }],
               scheduled_jobs := [{ id := .ext "SJ_1",
                                    workflow_id := .ext "WF_1",
                                    cron_expression := "0 8 * * *" }] },
    ap_jobs := ["daily_report"] }

/-- Witness for `c5_tools_inactive_skips_firing` on the spec scenario. -/
theorem c5_tools_inactive_skips_firing_witness :
    get_workflow c5st.store (.ext "WF_1") = some c5db ∧
    "slack" ∈ c5db.tools_required ∧
    get_tool_by_name c5st.store "slack" = none ∧
    execute_scheduled_workflow c2reg c5st "daily_report" (.ext "WF_1")
        100 (some 200) =
      (c5st, [], [.tools_inactive_skip "daily_report"]) :=
  ⟨by decide, by decide, by decide,
   c5_tools_inactive_skips_firing c2reg c5st "daily_report" (.ext "WF_1")
     100 (some 200) c5db "slack" (by decide) (by decide) (by decide)⟩

/-! ## Reconciliation lemmas (towards C3, C4, C7) -/

theorem map_ext_of {α β : Type} (l : List α) (f g : α → β)
    (h : ∀ a ∈ l, f a = g a) : l.map f = l.map g := by
  induction l with
  | nil => rfl
  | cons a t ih =>
      simp only [List.map_cons, h a (List.mem_cons_self a t)]
      rw [ih (fun b hb => h b (List.mem_cons_of_mem a hb))]

theorem applyWorkflowFields_cons (w : WorkflowModel) (f : WorkflowField)
    (t : List WorkflowField) :
    applyWorkflowFields w (f :: t) =
      applyWorkflowFields (applyWorkflowField w f) t := rfl

theorem applyWorkflowFields_append (w : WorkflowModel)
    (a b : List WorkflowField) :
    applyWorkflowFields w (a ++ b) =
      applyWorkflowFields (applyWorkflowFields w a) b :=
  List.foldl_append _ _ _ _

theorem applyWorkflowField_name (w : WorkflowModel) (f : WorkflowField) :
    (applyWorkflowField w f).name = w.name := by
  cases f <;> rfl

theorem applyWorkflowFields_name (w : WorkflowModel)
    (fs : List WorkflowField) : (applyWorkflowFields w fs).name = w.name := by
  induction fs generalizing w with
  | nil => rfl
  | cons f t ih => rw [applyWorkflowFields_cons, ih, applyWorkflowField_name]

theorem applyWorkflowField_id (w : WorkflowModel) (f : WorkflowField) :
    (applyWorkflowField w f).id = w.id := by
  cases f <;> rfl

theorem applyWorkflowFields_id (w : WorkflowModel)
    (fs : List WorkflowField) : (applyWorkflowFields w fs).id = w.id := by
  induction fs generalizing w with
  | nil => rfl
  | cons f t ih => rw [applyWorkflowFields_cons, ih, applyWorkflowField_id]

/-- The row state reached by applying a `_sync_workflow_to_db` update: all
mutable manifest fields overwritten with the manifest values, `id`, `name`,
`active` and `file_path` untouched. -/
def overwriteFromConfig (w : WorkflowModel) (c : WorkflowConfig) :
    WorkflowModel :=
  { w with display_name := c.name, description := c.description,
           category := c.category, schedule := c.schedule,
           triggers := c.triggers.getD [],
           tools_required := c.tools_required.getD [],
           tool_profiles := c.tool_profiles.getD [],
           author := c.author, version := c.version.getD "1.0.0" }

/-- Applying the computed diff always lands on the full overwrite: fields
whose setter was skipped were already equal to the manifest value. -/
theorem apply_syncUpdates (w : WorkflowModel) (c : WorkflowConfig) :
    applyWorkflowFields w (syncUpdates w c) = overwriteFromConfig w c := by
  unfold syncUpdates overwriteFromConfig
  iterate 8 rw [applyWorkflowFields_append]
  have h1 : applyWorkflowFields w
      (if w.display_name ≠ c.name then [.display_name c.name] else []) =
      { w with display_name := c.name } := by
    by_cases h : w.display_name ≠ c.name
    · rw [if_pos h]; rfl
    · rw [if_neg h]
      rw [not_ne_iff] at h
      rw [← h]
      rfl
  rw [h1]
  have h2 : applyWorkflowFields { w with display_name := c.name }
      (if w.description ≠ c.description then [.description c.description] else []) =
      { w with display_name := c.name, description := c.description } := by
    by_cases h : w.description ≠ c.description
    · rw [if_pos h]; rfl
    · rw [if_neg h]
      rw [not_ne_iff] at h
      rw [← h]
      rfl
  rw [h2]
  have h3 : applyWorkflowFields
      { w with display_name := c.name, description := c.description }
      (if w.category ≠ c.category then [.category c.category] else []) =
      { w with display_name := c.name, description := c.description,
               category := c.category } := by
    by_cases h : w.category ≠ c.category
    · rw [if_pos h]; rfl
    · rw [if_neg h]
      rw [not_ne_iff] at h
      rw [← h]
      rfl
  rw [h3]
  have h4 : applyWorkflowFields
      { w with display_name := c.name, description := c.description,
               category := c.category }
      (if w.schedule ≠ c.schedule then [.schedule c.schedule] else []) =
      { w with display_name := c.name, description := c.description,
               category := c.category, schedule := c.schedule } := by
    by_cases h : w.schedule ≠ c.schedule
    · rw [if_pos h]; rfl
    · rw [if_neg h]
      rw [not_ne_iff] at h
      rw [← h]
      rfl
  rw [h4]
  have h5 : applyWorkflowFields
      { w with display_name := c.name, description := c.description,
               category := c.category, schedule := c.schedule }
      (if w.triggers ≠ c.triggers.getD []
        then [.triggers (c.triggers.getD [])] else []) =
      { w with display_name := c.name, description := c.description,
               category := c.category, schedule := c.schedule,
               triggers := c.triggers.getD [] } := by
    by_cases h : w.triggers ≠ c.triggers.getD []
    · rw [if_pos h]; rfl
    · rw [if_neg h]
      rw [not_ne_iff] at h
      rw [← h]
      rfl
  rw [h5]
  have h6 : applyWorkflowFields
      { w with display_name := c.name, description := c.description,
               category := c.category, schedule := c.schedule,
               triggers := c.triggers.getD [] }
      (if w.tools_required ≠ c.tools_required.getD []
        then [.tools_required (c.tools_required.getD [])] else []) =
      { w with display_name := c.name, description := c.description,
               category := c.category, schedule := c.schedule,
               triggers := c.triggers.getD [],
               tools_required := c.tools_required.getD [] } := by
    by_cases h : w.tools_required ≠ c.tools_required.getD []
    · rw [if_pos h]; rfl
    · rw [if_neg h]
      rw [not_ne_iff] at h
      rw [← h]
      rfl
  rw [h6]
  have h7 : applyWorkflowFields
      { w with display_name := c.name, description := c.description,
               category := c.category, schedule := c.schedule,
               triggers := c.triggers.getD [],
               tools_required := c.tools_required.getD [] }
      (if w.tool_profiles ≠ c.tool_profiles.getD []
        then [.tool_profiles (c.tool_profiles.getD [])] else []) =
      { w with display_name := c.name, description := c.description,
               category := c.category, schedule := c.schedule,
               triggers := c.triggers.getD [],
               tools_required := c.tools_required.getD [],
               tool_profiles := c.tool_profiles.getD [] } := by
    by_cases h : w.tool_profiles ≠ c.tool_profiles.getD []
    · rw [if_pos h]; rfl
    · rw [if_neg h]
      rw [not_ne_iff] at h
      rw [← h]
      rfl
  rw [h7]
  have h8 : applyWorkflowFields
      { w with display_name := c.name, description := c.description,
               category := c.category, schedule := c.schedule,
               triggers := c.triggers.getD [],
               tools_required := c.tools_required.getD [],
               tool_profiles := c.tool_profiles.getD [] }
      (if w.author ≠ c.author then [.author c.author] else []) =
      { w with display_name := c.name, description := c.description,
               category := c.category, schedule := c.schedule,
               triggers := c.triggers.getD [],
               tools_required := c.tools_required.getD [],
               tool_profiles := c.tool_profiles.getD [],
               author := c.author } := by
    by_cases h : w.author ≠ c.author
    · rw [if_pos h]; rfl
    · rw [if_neg h]
      rw [not_ne_iff] at h
      rw [← h]
      rfl
  rw [h8]
  by_cases h : w.version ≠ c.version.getD "1.0.0"
  · rw [if_pos h]; rfl
  · rw [if_neg h]
    rw [not_ne_iff] at h
    rw [← h]
    rfl

/-- The per-field agreement between a stored row and a manifest that makes
the reconciler's update diff empty. -/
def WorkflowModel.matchesConfig (w : WorkflowModel) (c : WorkflowConfig) :
    Prop :=
  w.display_name = c.name ∧ w.description = c.description ∧
  w.category = c.category ∧ w.schedule = c.schedule ∧
  w.triggers = c.triggers.getD [] ∧
  w.tools_required = c.tools_required.getD [] ∧
  w.tool_profiles = c.tool_profiles.getD [] ∧
  w.author = c.author ∧ w.version = c.version.getD "1.0.0"

instance (w : WorkflowModel) (c : WorkflowConfig) :
    Decidable (w.matchesConfig c) := by
  unfold WorkflowModel.matchesConfig
  infer_instance

theorem matchesConfig_overwrite (w : WorkflowModel) (c : WorkflowConfig) :
    (overwriteFromConfig w c).matchesConfig c :=
  ⟨rfl, rfl, rfl, rfl, rfl, rfl, rfl, rfl, rfl⟩

theorem syncUpdates_nil_of_matches (w : WorkflowModel) (c : WorkflowConfig)
    (h : w.matchesConfig c) : syncUpdates w c = [] := by
  obtain ⟨h1, h2, h3, h4, h5, h6, h7, h8, h9⟩ := h
  unfold syncUpdates
  simp [h1, h2, h3, h4, h5, h6, h7, h8, h9]

theorem matches_of_syncUpdates_nil (w : WorkflowModel) (c : WorkflowConfig)
    (h : syncUpdates w c = []) : w.matchesConfig c := by
  have he : w = overwriteFromConfig w c := by
    have := apply_syncUpdates w c
    rw [h] at this
    exact this
  exact ⟨congrArg WorkflowModel.display_name he,
         congrArg WorkflowModel.description he,
         congrArg WorkflowModel.category he,
         congrArg WorkflowModel.schedule he,
         congrArg WorkflowModel.triggers he,
         congrArg WorkflowModel.tools_required he,
         congrArg WorkflowModel.tool_profiles he,
         congrArg WorkflowModel.author he,
         congrArg WorkflowModel.version he⟩

/-! ### `lastByName` lemmas -/

theorem list_workflows_false (s : Store) : list_workflows s false = s.workflows :=
  rfl

theorem find_name_map (l : List WorkflowModel) (f : WorkflowModel → WorkflowModel)
    (hf : ∀ w, (f w).name = w.name) (n : String) :
    (l.map f).find? (fun w => w.name == n) =
      (l.find? (fun w => w.name == n)).map f := by
  induction l with
  | nil => rfl
  | cons a t ih =>
      simp only [List.map_cons, List.find?_cons, hf a]
      rcases h : (a.name == n) with _ | _ <;> simp [h, ih]

theorem lastByName_map (l : List WorkflowModel)
    (f : WorkflowModel → WorkflowModel) (hf : ∀ w, (f w).name = w.name)
    (n : String) : lastByName (l.map f) n = (lastByName l n).map f := by
  unfold lastByName
  rw [← List.map_reverse]
  exact find_name_map _ f hf n

theorem lastByName_append_single (l : List WorkflowModel) (w : WorkflowModel)
    (n : String) :
    lastByName (l ++ [w]) n =
      if w.name == n then some w else lastByName l n := by
  unfold lastByName
  rw [List.reverse_append]
  show List.find? _ (w :: l.reverse) = _
  rw [List.find?_cons]
  rcases h : (w.name == n) with _ | _ <;> simp

theorem lastByName_mem {l : List WorkflowModel} {n : String}
    {w : WorkflowModel} (h : lastByName l n = some w) : w ∈ l :=
  List.mem_reverse.mp (List.mem_of_find?_eq_some h)

theorem lastByName_name {l : List WorkflowModel} {n : String}
    {w : WorkflowModel} (h : lastByName l n = some w) : w.name = n := by
  have := List.find?_some h
  simpa using this

/-! ### `sync_workflow_to_db` lemmas -/

theorem sync_noop (s : Store) (n : String) (c : WorkflowConfig) (p : String)
    (w : WorkflowModel) (hw : lastByName s.workflows n = some w)
    (hm : w.matchesConfig c) : sync_workflow_to_db s n c p = (s, []) := by
  unfold sync_workflow_to_db
  rw [list_workflows_false, hw]
  simp [syncUpdates_nil_of_matches w c hm]

/-- After syncing `(n, c)`, the row the dict lookup finds for `n` matches
`c`. -/
theorem sync_self (s : Store) (n : String) (c : WorkflowConfig) (p : String) :
    ∃ w', lastByName (sync_workflow_to_db s n c p).1.workflows n = some w' ∧
      w'.matchesConfig c := by
  unfold sync_workflow_to_db
  rw [list_workflows_false]
  cases hw : lastByName s.workflows n with
  | none =>
      dsimp only [create_workflow]
      refine ⟨{ id := .gen s.next_id, name := n, display_name := c.name,
                description := c.description, category := c.category,
                schedule := c.schedule, triggers := c.triggers.getD [],
                tools_required := c.tools_required.getD [],
                tool_profiles := c.tool_profiles.getD [],
                author := c.author, version := c.version.getD "1.0.0",
                active := c.active.getD true, file_path := some p }, ?_,
              ⟨rfl, rfl, rfl, rfl, rfl, rfl, rfl, rfl, rfl⟩⟩
      show lastByName (s.workflows ++ [_]) n = _
      rw [lastByName_append_single]
      simp
  | some w =>
      dsimp only
      by_cases he : (syncUpdates w c).isEmpty
      · rw [if_pos he]
        refine ⟨w, hw, ?_⟩
        exact matches_of_syncUpdates_nil w c (List.isEmpty_iff.mp he)
      · rw [if_neg he]
        have hf : ∀ r : WorkflowModel,
            ((fun r => if r.id = w.id
              then applyWorkflowFields r (syncUpdates w c) else r) r).name =
              r.name := by
          intro r
          by_cases h : r.id = w.id
          · simp [h, applyWorkflowFields_name]
          · simp [h]
        refine ⟨applyWorkflowFields w (syncUpdates w c), ?_, ?_⟩
        · show lastByName (s.workflows.map _) n = _
          rw [lastByName_map _ _ hf, hw]
          simp
        · rw [apply_syncUpdates]
          exact matchesConfig_overwrite w c

/-- Syncing `(n, c)` does not disturb the dict lookup of any other name. -/
theorem sync_other (s : Store) (n : String) (c : WorkflowConfig) (p : String)
    (m : String) (w : WorkflowModel) (hInv : s.Inv) (hmn : m ≠ n)
    (hw : lastByName s.workflows m = some w) :
    lastByName (sync_workflow_to_db s n c p).1.workflows m = some w := by
  unfold sync_workflow_to_db
  rw [list_workflows_false]
  cases hw0 : lastByName s.workflows n with
  | none =>
      dsimp only
      show lastByName (s.workflows ++ [_]) m = _
      rw [lastByName_append_single]
      have : ((n : String) == m) = false := by
        simp [Ne.symm hmn]
      simpa [this] using hw
  | some w0 =>
      dsimp only
      by_cases he : (syncUpdates w0 c).isEmpty
      · rw [if_pos he]; exact hw
      · rw [if_neg he]
        have hf : ∀ r : WorkflowModel,
            ((fun r => if r.id = w0.id
              then applyWorkflowFields r (syncUpdates w0 c) else r) r).name =
              r.name := by
          intro r
          by_cases h : r.id = w0.id
          · simp [h, applyWorkflowFields_name]
          · simp [h]
        show lastByName (s.workflows.map _) m = _
        rw [lastByName_map _ _ hf, hw]
        have hid : w.id ≠ w0.id := by
          intro hcontra
          have heq : w = w0 :=
            List.inj_on_of_nodup_map hInv.1 (lastByName_mem hw)
              (lastByName_mem hw0) hcontra
          exact hmn ((lastByName_name hw).symm.trans
            (heq ▸ lastByName_name hw0))
        simp [hid]

/-- Syncing touches only the workflow table (and the id counter). -/
theorem sync_tables (s : Store) (n : String) (c : WorkflowConfig) (p : String) :
    (sync_workflow_to_db s n c p).1.workflow_executions = s.workflow_executions ∧
    (sync_workflow_to_db s n c p).1.logs = s.logs ∧
    (sync_workflow_to_db s n c p).1.scheduled_jobs = s.scheduled_jobs ∧
    (sync_workflow_to_db s n c p).1.tools = s.tools := by
  unfold sync_workflow_to_db
  rw [list_workflows_false]
  cases lastByName s.workflows n with
  | none => exact ⟨rfl, rfl, rfl, rfl⟩
  | some w =>
      dsimp only
      by_cases he : (syncUpdates w c).isEmpty
      · rw [if_pos he]; exact ⟨rfl, rfl, rfl, rfl⟩
      · rw [if_neg he]; exact ⟨rfl, rfl, rfl, rfl⟩

theorem sync_inv (s : Store) (n : String) (c : WorkflowConfig) (p : String)
    (hInv : s.Inv) : (sync_workflow_to_db s n c p).1.Inv := by
  unfold sync_workflow_to_db
  rw [list_workflows_false]
  cases lastByName s.workflows n with
  | none =>
      dsimp only
      simp only [create_workflow]
      refine ⟨?_, ?_, ?_⟩
      · show ((s.workflows ++ [_]).map (fun w : WorkflowModel => w.id)).Nodup
        rw [List.map_append]
        rw [List.nodup_append]
        refine ⟨hInv.1, by simp, ?_⟩
        intro x hx hx'
        simp only [List.map_cons, List.map_nil, List.mem_singleton] at hx'
        subst hx'
        rcases List.mem_map.mp hx with ⟨w, hwmem, hwid⟩
        exact hInv.workflow_id_ne_fresh w hwmem hwid
      · intro w hw k hk
        show k < s.next_id + 1
        rcases List.mem_append.mp hw with h | h
        · have := hInv.2.1 w h k hk
          omega
        · simp only [List.mem_singleton] at h
          subst h
          simp only at hk
          have : k = s.next_id := by
            cases hk
            rfl
          omega
      · intro e he k hk
        show k < s.next_id + 1
        have := hInv.2.2 e he k hk
        omega
  | some w =>
      dsimp only
      by_cases he : (syncUpdates w c).isEmpty
      · rw [if_pos he]; exact hInv
      · rw [if_neg he]
        simp only [update_workflow]
        have hids : ((s.workflows.map (fun r =>
            if r.id = w.id then applyWorkflowFields r (syncUpdates w c) else r)).map
              (fun r : WorkflowModel => r.id)) =
            s.workflows.map (fun r : WorkflowModel => r.id) := by
          rw [List.map_map]
          apply map_ext_of
          intro r _
          by_cases h : r.id = w.id
          · simp [h, applyWorkflowFields_id]
          · simp [h]
        refine ⟨?_, ?_, ?_⟩
        · show ((s.workflows.map _).map (fun r : WorkflowModel => r.id)).Nodup
          rw [hids]
          exact hInv.1
        · intro r hr k hk
          show k < s.next_id
          rcases List.mem_map.mp hr with ⟨r0, hr0, rfl⟩
          by_cases h : r0.id = w.id
          · rw [if_pos h, applyWorkflowFields_id] at hk
            exact hInv.2.1 r0 hr0 k hk
          · rw [if_neg h] at hk
            exact hInv.2.1 r0 hr0 k hk
        · intro e he' k hk
          show k < s.next_id
          exact hInv.2.2 e he' k hk

/-- `sync_keep_row`: a stored row whose name is not being synced survives the
sync untouched, and stays the only row with its id. -/
theorem sync_keep_row (s : Store) (n : String) (c : WorkflowConfig)
    (p : String) (w : WorkflowModel) (hInv : s.Inv) (hw : w ∈ s.workflows)
    (hne : w.name ≠ n)
    (hq : ∀ r ∈ s.workflows, r.id = w.id → r = w) :
    w ∈ (sync_workflow_to_db s n c p).1.workflows ∧
    ∀ r ∈ (sync_workflow_to_db s n c p).1.workflows, r.id = w.id → r = w := by
  unfold sync_workflow_to_db
  rw [list_workflows_false]
  cases hw0 : lastByName s.workflows n with
  | none =>
      dsimp only
      simp only [create_workflow]
      constructor
      · exact List.mem_append_left _ hw
      · intro r hr hid
        rcases List.mem_append.mp hr with h | h
        · exact hq r h hid
        · simp only [List.mem_singleton] at h
          subst h
          exact absurd hid.symm (hInv.workflow_id_ne_fresh w hw)
  | some w0 =>
      dsimp only
      by_cases he : (syncUpdates w0 c).isEmpty
      · rw [if_pos he]
        exact ⟨hw, hq⟩
      · rw [if_neg he]
        simp only [update_workflow]
        have hww0 : w.id ≠ w0.id := by
          intro hcontra
          have heq : w = w0 :=
            List.inj_on_of_nodup_map hInv.1 hw (lastByName_mem hw0) hcontra
          exact hne (heq ▸ lastByName_name hw0)
        constructor
        · exact List.mem_map.mpr ⟨w, hw, if_neg hww0⟩
        · intro r hr hid
          rcases List.mem_map.mp hr with ⟨r0, hr0, rfl⟩
          have hid0 : r0.id = w.id := by
            by_cases h : r0.id = w0.id
            · rw [if_pos h, applyWorkflowFields_id] at hid
              exact hid
            · rwa [if_neg h] at hid
          have hr0w : r0 = w := hq r0 hr0 hid0
          subst hr0w
          rw [if_neg hww0]

/-! ### Discovery-pass (first loop of `_load_workflows`) fold lemmas -/

theorem fs_pass_inv (fs : List FsWorkflow) (s : Store) (acc : List StoreWrite)
    (hInv : s.Inv) : (fs.foldl syncStep (s, acc)).1.Inv := by
  induction fs generalizing s acc with
  | nil => exact hInv
  | cons f t ih =>
      rw [List.foldl_cons]
      exact ih _ _ (sync_inv _ _ _ _ hInv)

theorem fs_pass_tables (fs : List FsWorkflow) (s : Store)
    (acc : List StoreWrite) :
    (fs.foldl syncStep (s, acc)).1.workflow_executions = s.workflow_executions ∧
    (fs.foldl syncStep (s, acc)).1.logs = s.logs ∧
    (fs.foldl syncStep (s, acc)).1.scheduled_jobs = s.scheduled_jobs ∧
    (fs.foldl syncStep (s, acc)).1.tools = s.tools := by
  induction fs generalizing s acc with
  | nil => exact ⟨rfl, rfl, rfl, rfl⟩
  | cons f t ih =>
      rw [List.foldl_cons]
      obtain ⟨e1, e2, e3, e4⟩ := sync_tables s f.name f.config f.path
      obtain ⟨i1, i2, i3, i4⟩ := ih (sync_workflow_to_db s f.name f.config f.path).1
        (acc ++ (sync_workflow_to_db s f.name f.config f.path).2)
      exact ⟨i1.trans e1, i2.trans e2, i3.trans e3, i4.trans e4⟩

theorem fs_pass_synced (fs : List FsWorkflow) (s : Store)
    (acc : List StoreWrite) (hInv : s.Inv)
    (hnd : (fs.map (·.name)).Nodup) :
    (∀ f ∈ fs, ∃ w, lastByName (fs.foldl syncStep (s, acc)).1.workflows f.name =
        some w ∧ w.matchesConfig f.config) ∧
    (∀ m w, m ∉ fs.map (·.name) → lastByName s.workflows m = some w →
        lastByName (fs.foldl syncStep (s, acc)).1.workflows m = some w) := by
  induction fs generalizing s acc with
  | nil => exact ⟨by simp, fun m w _ h => h⟩
  | cons f t ih =>
      rw [List.foldl_cons]
      rw [List.map_cons, List.nodup_cons] at hnd
      have hInv' := sync_inv s f.name f.config f.path hInv
      obtain ⟨ihs, ihf⟩ :=
        ih (sync_workflow_to_db s f.name f.config f.path).1
          (acc ++ (sync_workflow_to_db s f.name f.config f.path).2) hInv' hnd.2
      constructor
      · intro g hg
        rcases List.mem_cons.mp hg with rfl | hg
        · obtain ⟨w, hw, hm⟩ := sync_self s g.name g.config g.path
          exact ⟨w, ihf g.name w hnd.1 hw, hm⟩
        · exact ihs g hg
      · intro m w hm hw
        have hm1 : m ≠ f.name := fun h => hm (by simp [h])
        have hm2 : m ∉ t.map (·.name) := fun h => hm (by simp [h])
        exact ihf m w hm2 (sync_other s f.name f.config f.path m w hInv hm1 hw)

theorem fs_pass_noop (fs : List FsWorkflow) (s : Store) (acc : List StoreWrite)
    (h : ∀ f ∈ fs, ∃ w, lastByName s.workflows f.name = some w ∧
        w.matchesConfig f.config) :
    fs.foldl syncStep (s, acc) = (s, acc) := by
  induction fs generalizing acc with
  | nil => rfl
  | cons f t ih =>
      rw [List.foldl_cons]
      obtain ⟨w, hw, hm⟩ := h f (List.mem_cons_self f t)
      have hstep : syncStep (s, acc) f = (s, acc) := by
        unfold syncStep
        rw [sync_noop s f.name f.config f.path w hw hm]
        simp
      rw [hstep]
      exact ih acc (fun g hg => h g (List.mem_cons_of_mem f hg))

theorem fs_pass_keep_row (fs : List FsWorkflow) (s : Store)
    (acc : List StoreWrite) (w : WorkflowModel) (hInv : s.Inv)
    (hw : w ∈ s.workflows) (habs : w.name ∉ fs.map (·.name))
    (hq : ∀ r ∈ s.workflows, r.id = w.id → r = w) :
    w ∈ (fs.foldl syncStep (s, acc)).1.workflows ∧
    ∀ r ∈ (fs.foldl syncStep (s, acc)).1.workflows, r.id = w.id → r = w := by
  induction fs generalizing s acc with
  | nil => exact ⟨hw, hq⟩
  | cons f t ih =>
      rw [List.foldl_cons]
      have hne : w.name ≠ f.name := fun h => habs (by simp [h])
      have habs' : w.name ∉ t.map (·.name) := fun h => habs (by simp [h])
      obtain ⟨hw', hq'⟩ := sync_keep_row s f.name f.config f.path w hInv hw hne hq
      exact ih (sync_workflow_to_db s f.name f.config f.path).1
        (acc ++ (sync_workflow_to_db s f.name f.config f.path).2)
        (sync_inv s f.name f.config f.path hInv) hw' habs' hq'

/-! ### Orphan-pass (second loop of `_load_workflows`) closed form -/

/-- The cumulative effect on one row of the orphan loop run over snapshot
`rs`: deactivated exactly when some snapshot row with the same id has a
non-discovered name. -/
def orphanMark (names : List String) (rs : List WorkflowModel)
    (r : WorkflowModel) : WorkflowModel :=
  if rs.any (fun w => !(names.contains w.name) && decide (w.id = r.id))
  then { r with active := false } else r

theorem orphanMark_id (names : List String) (rs : List WorkflowModel)
    (r : WorkflowModel) : (orphanMark names rs r).id = r.id := by
  unfold orphanMark
  split <;> rfl

theorem orphanMark_name (names : List String) (rs : List WorkflowModel)
    (r : WorkflowModel) : (orphanMark names rs r).name = r.name := by
  unfold orphanMark
  split <;> rfl

theorem orphanMark_matches (names : List String) (rs : List WorkflowModel)
    (r : WorkflowModel) (c : WorkflowConfig) :
    (orphanMark names rs r).matchesConfig c ↔ r.matchesConfig c := by
  unfold orphanMark
  split <;> exact Iff.rfl

theorem orphan_fold_store (names : List String) (rs : List WorkflowModel)
    (acc : Store × List StoreWrite) :
    (rs.foldl (orphanStep names) acc).1 =
      { acc.1 with workflows := acc.1.workflows.map (orphanMark names rs) } := by
  induction rs generalizing acc with
  | nil =>
      have : acc.1.workflows.map (orphanMark names []) = acc.1.workflows :=
        map_id_of _ _ (fun r _ => by unfold orphanMark; simp)
      rw [this]
      rfl
  | cons w rs ih =>
      rw [List.foldl_cons]
      by_cases hc : names.contains w.name
      · have hstep : orphanStep names acc w = acc := by
          unfold orphanStep
          rw [if_pos hc]
        rw [hstep, ih]
        have : acc.1.workflows.map (orphanMark names rs) =
            acc.1.workflows.map (orphanMark names (w :: rs)) := by
          apply map_ext_of
          intro r _
          unfold orphanMark
          rw [List.any_cons]
          have hmem : w.name ∈ names := by simpa using hc
          simp [hmem]
        rw [this]
      · have hstep : orphanStep names acc w =
            ((update_workflow acc.1 w.id [.active false]).1,
             acc.2 ++ (update_workflow acc.1 w.id [.active false]).2) := by
          unfold orphanStep
          rw [if_neg hc]
        rw [hstep, ih]
        simp only [update_workflow]
        have : ((acc.1.workflows.map (fun r =>
            if r.id = w.id then applyWorkflowFields r [.active false] else r)).map
              (orphanMark names rs)) =
            acc.1.workflows.map (orphanMark names (w :: rs)) := by
          rw [List.map_map]
          apply map_ext_of
          intro r _
          show orphanMark names rs
              (if r.id = w.id then applyWorkflowFields r [.active false] else r) =
            orphanMark names (w :: rs) r
          by_cases hid : r.id = w.id
          · rw [if_pos hid]
            have hrhs : orphanMark names (w :: rs) r = { r with active := false } := by
              unfold orphanMark
              rw [List.any_cons]
              have hmem : w.name ∉ names := by simpa using hc
              have hcond : (!(names.contains w.name) &&
                  decide (w.id = r.id)) = true := by
                simp [hmem, hid]
              rw [hcond]
              rw [Bool.true_or]
              rw [if_pos rfl]
            rw [hrhs]
            show orphanMark names rs { r with active := false } = _
            unfold orphanMark
            split <;> rfl
          · rw [if_neg hid]
            unfold orphanMark
            rw [List.any_cons]
            have hne : ¬ w.id = r.id := fun h => hid h.symm
            have hcond : (!(names.contains w.name) && decide (w.id = r.id)) = false := by
              simp [hne]
            rw [hcond, Bool.false_or]
        rw [this]

theorem orphan_fold_writes (names : List String) (rs : List WorkflowModel)
    (acc : Store × List StoreWrite) :
    (rs.foldl (orphanStep names) acc).2 =
      acc.2 ++ (rs.filter (fun w => !(names.contains w.name))).map
        (fun w => StoreWrite.updateWorkflow w.id [WorkflowField.active false]) := by
  induction rs generalizing acc with
  | nil => simp
  | cons w rs ih =>
      rw [List.foldl_cons, List.filter_cons]
      by_cases hc : names.contains w.name
      · have hstep : orphanStep names acc w = acc := by
          unfold orphanStep
          rw [if_pos hc]
        rw [hstep, ih]
        have hmem : w.name ∈ names := by simpa using hc
        simp [hmem]
      · have hstep : orphanStep names acc w =
            ((update_workflow acc.1 w.id [.active false]).1,
             acc.2 ++ [StoreWrite.updateWorkflow w.id [WorkflowField.active false]]) := by
          unfold orphanStep
          rw [if_neg hc]
          rfl
        rw [hstep, ih]
        have hmem : w.name ∉ names := by simpa using hc
        simp [hmem, List.append_assoc]

/-- Closed form of a full reconciliation pass. -/
theorem load_workflows_eq (fs : List FsWorkflow) (s : Store) :
    load_workflows fs s =
      ({ (fs.foldl syncStep (s, [])).1 with
          workflows := (fs.foldl syncStep (s, [])).1.workflows.map
            (orphanMark (fs.map (·.name)) (fs.foldl syncStep (s, [])).1.workflows) },
       (fs.foldl syncStep (s, [])).2 ++
         ((fs.foldl syncStep (s, [])).1.workflows.filter
            (fun w => !((fs.map (·.name)).contains w.name))).map
           (fun w => StoreWrite.updateWorkflow w.id [WorkflowField.active false])) := by
  have h1 := orphan_fold_store (fs.map (·.name))
    (fs.foldl syncStep (s, [])).1.workflows (fs.foldl syncStep (s, []))
  have h2 := orphan_fold_writes (fs.map (·.name))
    (fs.foldl syncStep (s, [])).1.workflows (fs.foldl syncStep (s, []))
  show (List.foldl (orphanStep (fs.map (·.name))) (fs.foldl syncStep (s, []))
      (list_workflows (fs.foldl syncStep (s, [])).1 false)) = _
  rw [list_workflows_false]
  rw [Prod.ext_iff]
  exact ⟨h1, h2⟩

theorem set_active_false_eq_self (r : WorkflowModel) (h : r.active = false) :
    { r with active := false } = r := by
  cases r
  simp only at h
  rw [h]

theorem inv_orphan (s : Store) (names : List String)
    (rs : List WorkflowModel) (hInv : s.Inv) :
    Store.Inv { s with workflows := s.workflows.map (orphanMark names rs) } := by
  refine ⟨?_, ?_, hInv.2.2⟩
  · show ((s.workflows.map _).map (fun r : WorkflowModel => r.id)).Nodup
    rw [List.map_map]
    have h : s.workflows.map
        ((fun r : WorkflowModel => r.id) ∘ orphanMark names rs) =
        s.workflows.map (fun r : WorkflowModel => r.id) :=
      map_ext_of _ _ _ (fun r _ => orphanMark_id names rs r)
    rw [h]
    exact hInv.1
  · intro r hr k hk
    show k < s.next_id
    rcases List.mem_map.mp hr with ⟨r0, hr0, rfl⟩
    rw [orphanMark_id] at hk
    exact hInv.2.1 r0 hr0 k hk

/-- **C3.** If a workflow's definitions are discovered twice in a row with
unchanged manifests, the second reconciliation performs zero Persistent Store
writes for those workflows: the store is returned bit-for-bit unchanged, and
every write issued by the second pass is an orphan re-deactivation
(`active := false`) of a row whose name was *not* among the discovered
workflows — no write ever targets a discovered workflow's row. -/
theorem c3_reconcile_idempotent (fs : List FsWorkflow) (s : Store)
    (hInv : s.Inv) (hnd : (fs.map (·.name)).Nodup) :
    (load_workflows fs (load_workflows fs s).1).1 = (load_workflows fs s).1 ∧
    ∀ wr ∈ (load_workflows fs (load_workflows fs s).1).2,
      ∃ w ∈ (load_workflows fs s).1.workflows,
        w.name ∉ fs.map (·.name) ∧
        wr = StoreWrite.updateWorkflow w.id [WorkflowField.active false] := by
  have heq1 := load_workflows_eq fs s
  obtain ⟨hsynced, _⟩ := fs_pass_synced fs s [] hInv hnd
  have hmidInv := fs_pass_inv fs s [] hInv
  have hs1w : (load_workflows fs s).1.workflows =
      (fs.foldl syncStep (s, [])).1.workflows.map
        (orphanMark (fs.map (·.name)) (fs.foldl syncStep (s, [])).1.workflows) := by
    rw [heq1]
  have hs1Inv : (load_workflows fs s).1.Inv := by
    rw [heq1]
    exact inv_orphan _ _ _ hmidInv
  have hsynced1 : ∀ f ∈ fs, ∃ w,
      lastByName (load_workflows fs s).1.workflows f.name = some w ∧
      w.matchesConfig f.config := by
    intro f hf
    obtain ⟨w, hw, hm⟩ := hsynced f hf
    refine ⟨orphanMark (fs.map (·.name))
      (fs.foldl syncStep (s, [])).1.workflows w, ?_, ?_⟩
    · rw [hs1w, lastByName_map _ _ (fun r => orphanMark_name _ _ r), hw]
      rfl
    · exact (orphanMark_matches _ _ w f.config).mpr hm
  have hinactive : ∀ r ∈ (load_workflows fs s).1.workflows,
      r.name ∉ fs.map (·.name) → r.active = false := by
    intro r hr hn
    rw [hs1w] at hr
    rcases List.mem_map.mp hr with ⟨r0, hr0, rfl⟩
    rw [orphanMark_name] at hn
    show (orphanMark _ _ r0).active = false
    unfold orphanMark
    have hcond : ((fs.foldl syncStep (s, [])).1.workflows.any
        (fun w => !((fs.map (·.name)).contains w.name) &&
          decide (w.id = r0.id))) = true :=
      List.any_eq_true.mpr ⟨r0, hr0, by simp [hn]⟩
    rw [hcond]
    rfl
  have hnoop := fs_pass_noop fs (load_workflows fs s).1 [] hsynced1
  have heq2 := load_workflows_eq fs (load_workflows fs s).1
  rw [hnoop] at heq2
  have hmapid : (load_workflows fs s).1.workflows.map
      (orphanMark (fs.map (·.name)) (load_workflows fs s).1.workflows) =
      (load_workflows fs s).1.workflows := by
    apply map_id_of
    intro r hr
    by_cases hany : ((load_workflows fs s).1.workflows.any
        (fun w => !((fs.map (·.name)).contains w.name) &&
          decide (w.id = r.id))) = true
    · rcases List.any_eq_true.mp hany with ⟨w', hw', hp⟩
      have hp1 : w'.name ∉ fs.map (·.name) ∧ w'.id = r.id := by
        simpa using hp
      have hwr : w' = r :=
        List.inj_on_of_nodup_map hs1Inv.1 hw' hr hp1.2
      have hact : r.active = false :=
        hinactive r hr (hwr ▸ hp1.1)
      unfold orphanMark
      rw [hany, if_pos rfl]
      exact set_active_false_eq_self r hact
    · unfold orphanMark
      rw [Bool.not_eq_true] at hany
      rw [hany, if_neg Bool.false_ne_true]
  constructor
  · rw [heq2]
    show ({ (load_workflows fs s).1 with
        workflows := (load_workflows fs s).1.workflows.map
          (orphanMark (fs.map (·.name)) (load_workflows fs s).1.workflows) } :
        Store) = _
    rw [hmapid]
  · intro wr hwr
    rw [heq2] at hwr
    simp only [List.nil_append] at hwr
    rcases List.mem_map.mp hwr with ⟨w, hwmem, rfl⟩
    rcases List.mem_filter.mp hwmem with ⟨hmem, hpred⟩
    exact ⟨w, hmem, by simpa using hpred, rfl⟩

/-- Fixture for C3: one discovered workflow plus one orphan row. -/
def c3fs : List FsWorkflow :=
  [{ name := "wf", config := { category := some "ops" }, path := "/wf/main.py",
     module := fun _ => Except.ok [("status", "success")] }]

def c3store : Store := { workflows := [{ id := .ext "WF_z", name := "old_wf" }] }

/-- Witness for `c3_reconcile_idempotent`. -/
theorem c3_reconcile_idempotent_witness :
    c3store.Inv ∧ (c3fs.map (·.name)).Nodup ∧
    ((load_workflows c3fs (load_workflows c3fs c3store).1).1 =
        (load_workflows c3fs c3store).1 ∧
     ∀ wr ∈ (load_workflows c3fs (load_workflows c3fs c3store).1).2,
       ∃ w ∈ (load_workflows c3fs c3store).1.workflows,
         w.name ∉ c3fs.map (·.name) ∧
         wr = StoreWrite.updateWorkflow w.id [WorkflowField.active false]) :=
  have hinv : c3store.Inv :=
    Store.inv_of_no_gen _ (by decide) (by decide) (by decide)
  ⟨hinv, by decide, c3_reconcile_idempotent c3fs c3store hinv (by decide)⟩

/-! ## C4: a category-only manifest change writes only `category` -/

/-- **C4.** For every workflow already present in the store whose manifest
`category` differs while all other mutable manifest fields are unchanged,
the reconciliation update writes exactly one statement that sets only the
`category` column of that row; in particular the `active` flag is not among
the written fields, and every row's `active` value (including an
operator-set `false`) is unchanged in the store. -/
theorem c4_category_change_updates_only_category (s : Store) (n : String)
    (c : WorkflowConfig) (p : String) (w : WorkflowModel)
    (hw : lastByName s.workflows n = some w)
    (h1 : w.display_name = c.name) (h2 : w.description = c.description)
    (h3 : w.schedule = c.schedule) (h4 : w.triggers = c.triggers.getD [])
    (h5 : w.tools_required = c.tools_required.getD [])
    (h6 : w.tool_profiles = c.tool_profiles.getD [])
    (h7 : w.author = c.author) (h8 : w.version = c.version.getD "1.0.0")
    (hdiff : w.category ≠ c.category) :
    (sync_workflow_to_db s n c p).2 =
      [StoreWrite.updateWorkflow w.id [WorkflowField.category c.category]] ∧
    (sync_workflow_to_db s n c p).1.workflows =
      s.workflows.map (fun r => if r.id = w.id
        then { r with category := c.category } else r) ∧
    (sync_workflow_to_db s n c p).1.workflows.map
        (fun r : WorkflowModel => r.active) =
      s.workflows.map (fun r : WorkflowModel => r.active) ∧
    (sync_workflow_to_db s n c p).1.next_id = s.next_id ∧
    (sync_workflow_to_db s n c p).1.workflow_executions =
      s.workflow_executions := by
  have hupd : syncUpdates w c = [WorkflowField.category c.category] := by
    unfold syncUpdates
    simp [h1, h2, h3, h4, h5, h6, h7, h8, hdiff]
  have hsync : sync_workflow_to_db s n c p =
      update_workflow s w.id [WorkflowField.category c.category] := by
    unfold sync_workflow_to_db
    rw [list_workflows_false, hw]
    dsimp only
    rw [hupd]
    rfl
  rw [hsync]
  simp only [update_workflow]
  refine ⟨by trivial, ?_, ?_, by trivial, by trivial⟩
  · apply map_ext_of
    intro r _
    by_cases h : r.id = w.id
    · rw [if_pos h, if_pos h]
      rfl
    · rw [if_neg h, if_neg h]
  · rw [List.map_map]
    apply map_ext_of
    intro r _
    by_cases h : r.id = w.id
    · show (if r.id = w.id then _ else r).active = r.active
      rw [if_pos h]
      rfl
    · show (if r.id = w.id then _ else r).active = r.active
      rw [if_neg h]

/-- Fixture for C4: a row the operator deactivated, category "old". -/
def c4w : WorkflowModel :=
  { id := .ext "WF_c", name := "wf4", category := some "old", active := false }

def c4s : Store := { workflows := [c4w] }

def c4cfg : WorkflowConfig := { category := some "new" }

/-- Witness for `c4_category_change_updates_only_category` with a row whose
`active` flag an operator previously set to false. -/
theorem c4_category_change_updates_only_category_witness :
    lastByName c4s.workflows "wf4" = some c4w ∧
    c4w.category ≠ c4cfg.category ∧ c4w.active = false ∧
    ((sync_workflow_to_db c4s "wf4" c4cfg "/p").2 =
        [StoreWrite.updateWorkflow c4w.id [WorkflowField.category c4cfg.category]] ∧
     (sync_workflow_to_db c4s "wf4" c4cfg "/p").1.workflows =
       c4s.workflows.map (fun r => if r.id = c4w.id
         then { r with category := c4cfg.category } else r) ∧
     (sync_workflow_to_db c4s "wf4" c4cfg "/p").1.workflows.map
         (fun r : WorkflowModel => r.active) =
       c4s.workflows.map (fun r : WorkflowModel => r.active) ∧
     (sync_workflow_to_db c4s "wf4" c4cfg "/p").1.next_id = c4s.next_id ∧
     (sync_workflow_to_db c4s "wf4" c4cfg "/p").1.workflow_executions =
       c4s.workflow_executions) :=
  ⟨by decide, by decide, by decide,
   c4_category_change_updates_only_category c4s "wf4" c4cfg "/p" c4w
     (by decide) rfl rfl rfl rfl rfl rfl rfl rfl (by decide)⟩

/-! ## Scheduler frame lemmas (towards C7) -/

theorem sync_job_frame (s : Store) (wfid : WfId) (cron : String)
    (nr : Option Nat) :
    (sync_job_to_db s wfid cron nr).1.workflows = s.workflows ∧
    (sync_job_to_db s wfid cron nr).1.workflow_executions =
      s.workflow_executions := by
  unfold sync_job_to_db
  cases s.scheduled_jobs.find? (fun j => decide (j.workflow_id = wfid)) with
  | some j => exact ⟨rfl, rfl⟩
  | none => exact ⟨rfl, rfl⟩

theorem schedule_workflow_frame (st : SchedState) (wname cron : String)
    (wfid : WfId) (cronOk : String → Bool) (cronNext : String → Option Nat) :
    (schedule_workflow st wname cron wfid cronOk cronNext).1.store.workflows =
      st.store.workflows ∧
    (schedule_workflow st wname cron wfid cronOk cronNext).1.store.workflow_executions =
      st.store.workflow_executions ∧
    ∀ x ∈ (schedule_workflow st wname cron wfid cronOk cronNext).1.ap_jobs,
      x ∈ st.ap_jobs ∨ x = wname := by
  unfold schedule_workflow
  by_cases hok : cronOk cron
  · rw [if_pos hok]
    obtain ⟨f1, f2⟩ := sync_job_frame st.store wfid cron (cronNext cron)
    refine ⟨f1, f2, ?_⟩
    intro x hx
    dsimp only at hx
    by_cases hc : st.ap_jobs.contains wname
    · rw [if_pos hc] at hx
      exact Or.inl hx
    · rw [if_neg hc] at hx
      rcases List.mem_append.mp hx with h | h
      · exact Or.inl h
      · exact Or.inr (by simpa using h)
  · rw [if_neg hok]
    exact ⟨rfl, rfl, fun x hx => Or.inl hx⟩

theorem schedStep_frame (cronOk : String → Bool)
    (cronNext : String → Option Nat) (acc : SchedState × List StoreWrite)
    (f : FsWorkflow) :
    (schedStep cronOk cronNext acc f).1.store.workflows =
      acc.1.store.workflows ∧
    (schedStep cronOk cronNext acc f).1.store.workflow_executions =
      acc.1.store.workflow_executions ∧
    ∀ x ∈ (schedStep cronOk cronNext acc f).1.ap_jobs,
      x ∈ acc.1.ap_jobs ∨ x = f.name := by
  unfold schedStep
  cases f.config.schedule with
  | none => exact ⟨rfl, rfl, fun x hx => Or.inl hx⟩
  | some cron =>
      dsimp only
      by_cases hcond : f.config.active.getD true ∧
          "schedule" ∈ f.config.triggers.getD []
      · rw [if_pos hcond]
        cases firstByName acc.1.store f.name with
        | none => exact ⟨rfl, rfl, fun x hx => Or.inl hx⟩
        | some db =>
            dsimp only
            by_cases hact : db.active
            · rw [if_pos hact]
              exact schedule_workflow_frame acc.1 f.name cron db.id cronOk cronNext
            · rw [if_neg hact]
              exact ⟨rfl, rfl, fun x hx => Or.inl hx⟩
      · rw [if_neg hcond]
        exact ⟨rfl, rfl, fun x hx => Or.inl hx⟩

theorem sched_fold_frame (cronOk : String → Bool)
    (cronNext : String → Option Nat) (fs : List FsWorkflow)
    (acc : SchedState × List StoreWrite) :
    (fs.foldl (schedStep cronOk cronNext) acc).1.store.workflows =
      acc.1.store.workflows ∧
    (fs.foldl (schedStep cronOk cronNext) acc).1.store.workflow_executions =
      acc.1.store.workflow_executions ∧
    ∀ x ∈ (fs.foldl (schedStep cronOk cronNext) acc).1.ap_jobs,
      x ∈ acc.1.ap_jobs ∨ x ∈ fs.map (·.name) := by
  induction fs generalizing acc with
  | nil => exact ⟨rfl, rfl, fun x hx => Or.inl hx⟩
  | cons f t ih =>
      rw [List.foldl_cons]
      obtain ⟨s1, s2, s3⟩ := schedStep_frame cronOk cronNext acc f
      obtain ⟨i1, i2, i3⟩ := ih (schedStep cronOk cronNext acc f)
      refine ⟨i1.trans s1, i2.trans s2, ?_⟩
      intro x hx
      rcases i3 x hx with h | h
      · rcases s3 x h with h' | h'
        · exact Or.inl h'
        · exact Or.inr (by simp [h'])
      · exact Or.inr (by simp [h])

/-! ## C7: definition removed from the filesystem -/

/-- **C7.** For every workflow present in the store as active whose
definition folder is absent from the filesystem at the next reconciliation
(`reload_workflows` = `_load_workflows` + scheduler reload), the
reconciliation deactivates the row without deleting it — the exact row, all
other fields untouched, remains the unique row with that id — the armed cron
timer for the workflow is gone after the reload, and the WorkflowExecution
history is byte-for-byte intact. -/
theorem c7_removed_definition_deactivates (fs : List FsWorkflow)
    (st : SchedState) (cronOk : String → Bool)
    (cronNext : String → Option Nat) (w : WorkflowModel)
    (hInv : st.store.Inv)
    (hw : w ∈ st.store.workflows)
    (hact : w.active = true)
    (habs : w.name ∉ fs.map (·.name))
    (hrun : st.is_running = true) :
    ({ w with active := false } ∈
        (reload_workflows fs st cronOk cronNext).1.store.workflows) ∧
    (∀ r ∈ (reload_workflows fs st cronOk cronNext).1.store.workflows,
        r.id = w.id → r = { w with active := false }) ∧
    w.name ∉ (reload_workflows fs st cronOk cronNext).1.ap_jobs ∧
    (reload_workflows fs st cronOk cronNext).1.store.workflow_executions =
      st.store.workflow_executions := by
  have hq0 : ∀ r ∈ st.store.workflows, r.id = w.id → r = w := by
    intro r hr hid
    exact List.inj_on_of_nodup_map hInv.1 hr hw hid
  obtain ⟨hwmid, hqmid⟩ := fs_pass_keep_row fs st.store [] w hInv hw habs hq0
  have heq1 := load_workflows_eq fs st.store
  have hmark : orphanMark (fs.map (·.name))
      (fs.foldl syncStep (st.store, [])).1.workflows w =
      { w with active := false } := by
    unfold orphanMark
    have hcond : ((fs.foldl syncStep (st.store, [])).1.workflows.any
        (fun r => !((fs.map (·.name)).contains r.name) &&
          decide (r.id = w.id))) = true :=
      List.any_eq_true.mpr ⟨w, hwmid, by simp [habs]⟩
    rw [hcond]
    rfl
  have hs1mem : { w with active := false } ∈
      (load_workflows fs st.store).1.workflows := by
    rw [heq1]
    show _ ∈ (fs.foldl syncStep (st.store, [])).1.workflows.map _
    rw [← hmark]
    exact List.mem_map_of_mem _ hwmid
  have hs1q : ∀ r ∈ (load_workflows fs st.store).1.workflows,
      r.id = w.id → r = { w with active := false } := by
    intro r hr hid
    rw [heq1] at hr
    rcases List.mem_map.mp hr with ⟨r0, hr0, rfl⟩
    rw [orphanMark_id] at hid
    have hr0w : r0 = w := hqmid r0 hr0 hid
    subst hr0w
    exact hmark
  have hs1exec : (load_workflows fs st.store).1.workflow_executions =
      st.store.workflow_executions := by
    rw [heq1]
    exact (fs_pass_tables fs st.store []).1
  have hrel : (reload_workflows fs st cronOk cronNext).1 =
      (fs.foldl (schedStep cronOk cronNext)
        (SchedState.mk (load_workflows fs st.store).1 [] st.is_running, [])).1 := by
    unfold reload_workflows reload_schedules schedule_all_workflows
    dsimp only
    rw [hrun]
    rfl
  obtain ⟨g1, g2, g3⟩ := sched_fold_frame cronOk cronNext fs
    (SchedState.mk (load_workflows fs st.store).1 [] st.is_running, [])
  refine ⟨?_, ?_, ?_, ?_⟩
  · rw [hrel, g1]
    exact hs1mem
  · intro r hr hid
    rw [hrel, g1] at hr
    exact hs1q r hr hid
  · rw [hrel]
    intro hx
    rcases g3 w.name hx with h | h
    · simp at h
    · exact habs h
  · rw [hrel, g2]
    exact hs1exec

/-- Fixture for C7: the orphaned workflow row (its folder was removed). -/
def c7w : WorkflowModel := { id := .ext "WF_d", name := "daily" }

/-- Fixture for C7: manifest of a workflow that is still on disk. -/
def c7cfg : WorkflowConfig :=
  { schedule := some "0 8 * * *", triggers := some ["schedule"] }

/-- Fixture for C7: another workflow that is still on disk and scheduled. -/
def c7fs : List FsWorkflow :=
  [{ name := "other", config := c7cfg, path := "/other/main.py",
     module := fun _ => Except.ok [("status", "success")] }]

/-- Fixture for C7: running scheduler, "daily" armed, one past execution. -/
def c7st : SchedState :=
  { store := { workflows := [c7w],
               scheduled_jobs := [{ id := .ext "SJ_d", workflow_id := .ext "WF_d",
                                    cron_expression := "0 9 * * *" }],
               workflow_executions := [{ id := .ext "WE_d",
                                         workflow_id := .ext "WF_d",
                                         trigger_type := "manual" }] },
    ap_jobs := ["daily"] }

/-- Witness for `c7_removed_definition_deactivates`. -/
theorem c7_removed_definition_deactivates_witness :
    c7st.store.Inv ∧ c7w ∈ c7st.store.workflows ∧ c7w.active = true ∧
    c7w.name ∉ c7fs.map (·.name) ∧ c7st.is_running = true ∧
    (({ c7w with active := false } ∈
        (reload_workflows c7fs c7st (fun _ => true)
          (fun _ => some 5)).1.store.workflows) ∧
     (∀ r ∈ (reload_workflows c7fs c7st (fun _ => true)
          (fun _ => some 5)).1.store.workflows,
        r.id = c7w.id → r = { c7w with active := false }) ∧
     c7w.name ∉ (reload_workflows c7fs c7st (fun _ => true)
        (fun _ => some 5)).1.ap_jobs ∧
     (reload_workflows c7fs c7st (fun _ => true)
        (fun _ => some 5)).1.store.workflow_executions =
       c7st.store.workflow_executions) :=
  have hinv : c7st.store.Inv :=
    Store.inv_of_no_gen _ (by decide) (by decide) (by decide)
  ⟨hinv, by decide, by decide, by decide, by decide,
   c7_removed_definition_deactivates c7fs c7st (fun _ => true) (fun _ => some 5)
     c7w hinv (by decide) (by decide) (by decide) (by decide)⟩

end Automator
